import Mathlib

/-!
Verification development for the creator ranking and budget allocation
engine of the kit targeting app (FastAPI backend).

The Python source is shallowly embedded here:

* floats are modelled as exact rationals (`Rat`);
* `float('inf')` values (undefined CPA) are modelled as `none` in `Option Rat`;
* Python dictionaries keyed by creator id (`creator_placement_counts`)
  are modelled as association lists `List (Nat × Nat)`;
* the bounded `while` loops are modelled by structural recursion on the
  exact fuel the source uses (`max_iterations`);
* database fetches are modelled as explicit list/record inputs;
* Python truthiness on optionals (`if not cpc`, `if creator.conservative_click_estimate`)
  is modelled explicitly (`none` and `some 0` are falsy).

Sources embedded: `src/api/app/routers/analytics.py` (`create_plan`,
`create_smart_plan`), `src/api/app/smart_matching.py`
(`SmartMatchingService`), `src/api/app/demographic_matching.py`.
-/

namespace KitPlanner

/-- One entry of `creator_stats` in `create_plan`
(`analytics.py` lines 709-720).  `expected_cpa = none` encodes
`float('inf')` (zero CVR).  Response-only fields (`name`, `acct_id`) are
omitted; they never influence control flow. -/
structure CreatorStat where
  creator_id : Nat
  expected_cvr : Rat
  expected_cpa : Option Rat
  clicks_per_day : Rat
  expected_clicks : Rat
  expected_spend : Rat
  expected_conversions : Rat
  value_ratio : Rat
deriving Repr, DecidableEq

/-- `creator_placement_counts.get(creator_id, 0)` (`analytics.py` line 747). -/
def getCount (counts : List (Nat × Nat)) (cid : Nat) : Nat :=
  match counts.find? (fun p => p.1 == cid) with
  | some p => p.2
  | none => 0

/-- `creator_placement_counts[creator_id] = v` on a Python dict. -/
def setCount (counts : List (Nat × Nat)) (cid : Nat) (v : Nat) : List (Nat × Nat) :=
  if counts.any (fun p => p.1 == cid) then
    counts.map (fun p => if p.1 == cid then (cid, v) else p)
  else counts ++ [(cid, v)]

/-- Mutable state of the greedy allocation in `create_plan`
(`analytics.py` lines 738-742). -/
structure AllocState where
  picked : List CreatorStat
  total_spend : Rat
  total_conversions : Rat
  remaining : Rat
  counts : List (Nat × Nat)
deriving Repr, DecidableEq

/-- Allocate one full placement for `c` (`analytics.py` lines 756-763 and
789-795): append the stat, update the running totals, decrement the
remaining budget and bump the placement count. -/
def allocFull (c : CreatorStat) (st : AllocState) : AllocState :=
  { picked := st.picked ++ [c]
    total_spend := st.total_spend + c.expected_spend
    total_conversions := st.total_conversions + c.expected_conversions
    remaining := st.remaining - c.expected_spend
    counts := setCount st.counts c.creator_id (getCount st.counts c.creator_id + 1) }

/-- First pass of `create_plan` (`analytics.py` lines 745-765): scan the
ranked stats once; skip creators at the 3-placement cap, allocate a full
placement whenever `expected_spend ≤ remaining_budget`. -/
def firstPass (stats : List CreatorStat) (st : AllocState) : AllocState :=
  match stats with
  | [] => st
  | c :: rest =>
    if 3 ≤ getCount st.counts c.creator_id then firstPass rest st
    else if c.expected_spend ≤ st.remaining then firstPass rest (allocFull c st)
    else firstPass rest st

/-- The scan at `analytics.py` lines 781-797: first creator under the cap
whose full placement fits the remaining budget. -/
def findFull (stats : List CreatorStat) (counts : List (Nat × Nat)) (remaining : Rat) :
    Option CreatorStat :=
  stats.find? (fun c =>
    decide (getCount counts c.creator_id < 3) && decide (c.expected_spend ≤ remaining))

/-- The scan at `analytics.py` lines 801-825: first creator under the cap
that is too expensive for the remaining budget but whose fractional
share `remaining / expected_spend` strictly exceeds `0.1`. -/
def findPro (stats : List CreatorStat) (counts : List (Nat × Nat)) (remaining : Rat) :
    Option CreatorStat :=
  stats.find? (fun c =>
    decide (getCount counts c.creator_id < 3) && decide (remaining < c.expected_spend) &&
      decide ((1 : Rat) / 10 < remaining / c.expected_spend))

/-- Pro-rated allocation (`analytics.py` lines 810-824): scale clicks and
conversions by `remaining / expected_spend`, set the spend to the whole
remaining budget, and zero the remaining budget. -/
def proRate (c : CreatorStat) (st : AllocState) : AllocState :=
  let frac := st.remaining / c.expected_spend
  { picked := st.picked ++
      [{ c with expected_clicks := c.expected_clicks * frac
                expected_spend := st.remaining
                expected_conversions := c.expected_conversions * frac }]
    total_spend := st.total_spend + st.remaining
    total_conversions := st.total_conversions + c.expected_conversions * frac
    remaining := 0
    counts := setCount st.counts c.creator_id (getCount st.counts c.creator_id + 1) }

/-- Budget-maximization loop of `create_plan` (`analytics.py` lines
770-830): `while remaining_budget > 0 and iteration < max_iterations`,
each iteration allocates the first fitting full placement, failing that
the first eligible pro-rated placement, and breaks when neither exists.
Returns the final state and the number of iterations entered. -/
def budgetLoop (stats : List CreatorStat) : Nat → AllocState → AllocState × Nat
  | 0, st => (st, 0)
  | fuel + 1, st =>
    if st.remaining ≤ 0 then (st, 0)
    else
      match findFull stats st.counts st.remaining with
      | some c =>
        let r := budgetLoop stats fuel (allocFull c st)
        (r.1, r.2 + 1)
      | none =>
        match findPro stats st.counts st.remaining with
        | some c =>
          let r := budgetLoop stats fuel (proRate c st)
          (r.1, r.2 + 1)
        | none => (st, 1)

/-- The `PlanResponse` totals of `create_plan` (`analytics.py` lines
834-846). -/
structure PlanResult where
  picked : List CreatorStat
  total_spend : Rat
  total_conversions : Rat
  blended_cpa : Rat
  budget_utilization : Rat
deriving Repr, DecidableEq

/-- Initial allocation state of `create_plan` (`analytics.py` lines 738-742). -/
def initState (budget : Rat) : AllocState :=
  { picked := [], total_spend := 0, total_conversions := 0, remaining := budget, counts := [] }

/-- The full greedy allocator of `create_plan` (`analytics.py` lines
736-846): first pass, then the budget-maximization loop with fuel
`len(creator_stats) * 3`, then the response totals. -/
def createPlanAlloc (budget : Rat) (stats : List CreatorStat) : PlanResult :=
  let st2 := (budgetLoop stats (stats.length * 3) (firstPass stats (initState budget))).1
  { picked := st2.picked
    total_spend := st2.total_spend
    total_conversions := st2.total_conversions
    blended_cpa := if 0 < st2.total_conversions then st2.total_spend / st2.total_conversions else 0
    budget_utilization := if 0 < budget then st2.total_spend / budget else 0 }

/-- Number of iterations the budget-maximization loop of `create_plan`
performs (`iteration` in `analytics.py` lines 771-775). -/
def createPlanIters (budget : Rat) (stats : List CreatorStat) : Nat :=
  (budgetLoop stats (stats.length * 3) (firstPass stats (initState budget))).2

/-- The per-creator catalog data `create_plan` fetches while building
`creator_stats` (`analytics.py` lines 588-706).  `total_clicks` and
`total_conversions` are the same-context sums; `overall_clicks` and
`overall_conversions` the all-context sums; `historical_days` the
`max - min` execution-date span (`none` when the query returns nothing,
which falls back to 30 days, as does a span of 0, which is falsy). -/
structure RawCreator where
  creator_id : Nat
  total_clicks : Nat
  conservative_click_estimate : Option Nat
  total_conversions : Nat
  overall_clicks : Nat
  overall_conversions : Nat
  historical_days : Option Nat
deriving Repr, DecidableEq

/-- `if historical_days: historical_days = max(1, historical_days) else: 30`
(`analytics.py` lines 697-701); `0` is falsy in Python. -/
def resolveDays (hd : Option Nat) : Nat :=
  match hd with
  | some d => if d = 0 then 30 else max 1 d
  | none => 30

/-- Click estimate of `analytics.py` lines 610-622: use the same-context
click total, fall back to the conservative estimate when it is truthy
(`none` and `some 0` are falsy), otherwise drop the creator. -/
def effectiveClicks (r : RawCreator) : Option Nat :=
  if r.total_clicks = 0 then
    match r.conservative_click_estimate with
    | some e => if e = 0 then none else some e
    | none => none
  else some r.total_clicks

/-- CVR estimate of `analytics.py` lines 643-666: same-context historical
CVR when clicks and conversions are both positive, else the overall
creator CVR, else the advertiser/global baseline. -/
def expectedCvrOf (acvr : Rat) (tc : Nat) (r : RawCreator) : Rat :=
  if 0 < tc ∧ 0 < r.total_conversions then (r.total_conversions : Rat) / (tc : Rat)
  else if 0 < r.overall_clicks ∧ 0 < r.overall_conversions then
    (r.overall_conversions : Rat) / (r.overall_clicks : Rat)
  else acvr

/-- `expected_cpa = cpc / expected_cvr if expected_cvr > 0 else float('inf')`
(`analytics.py` line 667). -/
def expectedCpaOf (cpc cvr : Rat) : Option Rat :=
  if 0 < cvr then some (cpc / cvr) else none

/-- The target-CPA admission test of `analytics.py` line 671:
`plan_request.target_cpa is None or expected_cpa <= plan_request.target_cpa`
(an infinite CPA never passes a finite target). -/
def passesCpa (target : Option Rat) (cpa : Option Rat) : Bool :=
  match target with
  | none => true
  | some t =>
    match cpa with
    | some v => decide (v ≤ t)
    | none => false

/-- Build one `creator_stats` entry (`analytics.py` lines 588-723),
returning `none` when the creator is skipped (no clicks and no estimate,
or it fails the CPA filter). -/
def buildStat (cpc acvr : Rat) (target : Option Rat) (horizon : Rat) (r : RawCreator) :
    Option CreatorStat :=
  match effectiveClicks r with
  | none => none
  | some tc =>
    let cvr := expectedCvrOf acvr tc r
    let cpa := expectedCpaOf cpc cvr
    if passesCpa target cpa then
      let cpd := (tc : Rat) / (max 1 (resolveDays r.historical_days) : Nat)
      let eclicks := cpd * horizon
      some { creator_id := r.creator_id
             expected_cvr := cvr
             expected_cpa := cpa
             clicks_per_day := cpd
             expected_clicks := eclicks
             expected_spend := cpc * eclicks
             expected_conversions := cvr * eclicks
             value_ratio := if 0 < cpc then cvr / cpc else 0 }
    else none

/-- The `creator_stats` list of `create_plan` before sorting
(`analytics.py` lines 581-723). -/
def buildStats (cpc acvr : Rat) (target : Option Rat) (horizon : Rat)
    (rs : List RawCreator) : List CreatorStat :=
  rs.filterMap (buildStat cpc acvr target horizon)

/-- The sort of `analytics.py` lines 725-734: descending by `expected_cvr`
when no target CPA is set, otherwise descending by `value_ratio`; Python
`list.sort` is stable, which `List.insertionSort` with a `≥` key mirrors. -/
def sortStats (target : Option Rat) (stats : List CreatorStat) : List CreatorStat :=
  match target with
  | none => List.insertionSort (fun a b => b.expected_cvr ≤ a.expected_cvr) stats
  | some _ => List.insertionSort (fun a b => b.value_ratio ≤ a.value_ratio) stats

/-- `create_plan` from `creator_stats` construction to the response
(`analytics.py` lines 579-846). -/
def createPlanRun (budget cpc acvr : Rat) (target : Option Rat) (horizon : Rat)
    (rs : List RawCreator) : PlanResult :=
  createPlanAlloc budget (sortStats target (buildStats cpc acvr target horizon rs))

/-- The `PlanRequest` fields that validation reads (`schemas.py` lines
73-92).  Optional numeric fields keep Python truthiness: `none` and
`some 0` are falsy. -/
structure PlanRequest where
  category : Option String
  advertiser_id : Option Int
  insertion_id : Option Int
  cpc : Option Rat
  budget : Rat
  target_cpa : Option Rat
  advertiser_avg_cvr : Option Rat
  horizon_days : Int
deriving Repr, DecidableEq

/-- Python truthiness of an optional string (`not plan_request.category`). -/
def truthyStr (s : Option String) : Bool :=
  match s with
  | some v => v ≠ ""
  | none => false

/-- Python truthiness of an optional integer (`not plan_request.insertion_id`). -/
def truthyInt (i : Option Int) : Bool :=
  match i with
  | some v => v ≠ 0
  | none => false

/-- Python truthiness of an optional float (`not plan_request.cpc`). -/
def truthyRat (q : Option Rat) : Bool :=
  match q with
  | some v => v ≠ 0
  | none => false

/-- The validation chain shared verbatim by `create_plan`
(`analytics.py` lines 438-461) and `create_smart_plan` (lines 859-882):
the first failing check raises `HTTPException(400, detail)`. -/
def validateRequest (req : PlanRequest) : Except String Unit :=
  if ¬ (truthyStr req.category || truthyInt req.advertiser_id) then
    Except.error "Either category or advertiser_id must be provided"
  else if ¬ (truthyInt req.insertion_id || truthyRat req.cpc) then
    Except.error "Either insertion_id or cpc must be provided"
  else if req.budget ≤ 0 then
    Except.error "Budget must be greater than 0"
  else if (match req.target_cpa with | some t => decide (t ≤ 0) | none => false) then
    Except.error "Target CPA must be greater than 0"
  else if req.horizon_days ≤ 0 then
    Except.error "Horizon days must be greater than 0"
  else if (match req.advertiser_avg_cvr with
           | some v => decide (v ≤ 0) || decide (1 ≤ v)
           | none => false) then
    Except.error "Advertiser average CVR must be between 0 and 1"
  else Except.ok ()

/-- `create_plan` including its validation prologue (`analytics.py` lines
438-476 then 579-846): validation errors are raised before any catalog
read or allocation; `insCpc` stands for the CPC resolved from the
insertion when `plan_request.cpc` is falsy (lines 466-474). -/
def createPlanModel (req : PlanRequest) (insCpc : Rat) (rs : List RawCreator) :
    Except String PlanResult :=
  match validateRequest req with
  | Except.error e => Except.error e
  | Except.ok _ =>
    let cpc := match req.cpc with
               | some c => if c = 0 then insCpc else c
               | none => insCpc
    let acvr := match req.advertiser_avg_cvr with
                | some v => v
                | none => (25 : Rat) / 1000
    Except.ok (createPlanRun req.budget cpc acvr req.target_cpa (req.horizon_days : Rat) rs)

/-- A fetched pool member, as the include/exclude filter sees it
(`analytics.py` lines 513-553, `smart_matching.py` lines 53-94). -/
structure PoolCreator where
  creator_id : Nat
  acct_id : String
deriving Repr, DecidableEq

/-- Python whitespace stripped by `str.strip`. -/
def isSpaceChar (c : Char) : Bool :=
  c = ' ' || c = '\t' || c = '\n' || c = '\r'

/-- `s.strip()` (`creator.acct_id.strip()` in the pool filter). -/
def stripStr (s : String) : String :=
  String.mk (((s.toList.dropWhile isSpaceChar).reverse.dropWhile isSpaceChar).reverse)

/-- The include pass of the account-id filter (`analytics.py` lines
543-551, `smart_matching.py` lines 83-91): walk the fetched pool and
append any creator whose stripped account id is in the include set and
whose creator id is not already present in the accumulated list. -/
def addIncluded (inc : List String) : List PoolCreator → List PoolCreator → List PoolCreator
  | [], acc => acc
  | c :: rest, acc =>
    if stripStr c.acct_id ∈ inc ∧ ¬ (acc.any (fun d => d.creator_id == c.creator_id)) then
      addIncluded inc rest (acc ++ [c])
    else addIncluded inc rest acc

/-- The include/exclude account-id filter, written identically in
`create_plan` (`analytics.py` lines 529-553) and
`SmartMatchingService.find_smart_creators` (`smart_matching.py` lines
69-93): first drop every fetched creator whose stripped account id is in
the exclude set (only when the exclude set is non-empty, mirroring
`if exclude_acct_ids and ...`), then, when the include set is non-empty,
walk the fetched pool again and re-append matching creators.  The parsed
include/exclude sets are inputs (their elements are already stripped at
parse time). -/
def filterCreators (pool : List PoolCreator) (inc exc : List String) : List PoolCreator :=
  let filtered := pool.filter (fun c => ¬ (exc ≠ [] ∧ stripStr c.acct_id ∈ exc))
  if inc ≠ [] then addIncluded inc pool filtered else filtered

/-- Phase assignment of
`SmartMatchingService._get_batch_performance_data`
(`smart_matching.py` lines 446-479): phase 1 when the same-context
aggregate has clicks or conversions, phase 2 when only the cross-context
aggregate does, phase 3 otherwise. -/
def classifyPhase (same_clicks same_conversions cross_clicks cross_conversions : Int) : Nat :=
  if 0 < same_clicks ∨ 0 < same_conversions then 1
  else if 0 < cross_clicks ∨ 0 < cross_conversions then 2
  else 3

/-- Lower-case a character, as Python `str.lower` does on ASCII input. -/
def lowChar (c : Char) : Char := c.toLower

/-- `s.lower().strip()` on the character list of `s`. -/
def lowerStrip (s : String) : List Char :=
  (((s.toList.map lowChar).dropWhile isSpaceChar).reverse.dropWhile isSpaceChar).reverse

/-- Python substring containment `needle in hay` on character lists. -/
def containsList (needle : List Char) : List Char → Bool
  | [] => needle.isEmpty
  | h :: t => needle.isPrefixOf (h :: t) || containsList needle t

/-- `match_gender_skew` (`demographic_matching.py` lines 57-79): 0 when a
side is empty, 1 on exact lower/strip match, 0.8 when both sides contain
`"even"`, 0.6 when both contain `"men"` or both contain `"women"` as
substrings, else 0. -/
def match_gender_skew (creator_gender target_gender : String) : Rat :=
  if creator_gender = "" ∨ target_gender = "" then 0
  else
    let c := lowerStrip creator_gender
    let t := lowerStrip target_gender
    if c = t then 1
    else if containsList "even".toList c ∧ containsList "even".toList t then (8 : Rat) / 10
    else if (containsList "men".toList c ∧ containsList "men".toList t) ∨
            (containsList "women".toList c ∧ containsList "women".toList t) then (6 : Rat) / 10
    else 0

/-- One element of `matched_creators` as `create_smart_plan` reads it: the
creator id, the batch CVR (`batch_performance_data[creator_id]['expected_cvr']`,
`none` when the id is absent from the batch dictionary), the
`performance_data` dictionary fields produced by
`SmartMatchingService._create_performance_data_from_batch`
(`smart_matching.py` lines 665-677; `expected_cpa` is `None`, here
`none`, when the CVR is zero), and the `combined_score`. -/
structure MatchedCreator where
  creator_id : Nat
  batch_cvr : Option Rat
  perf_expected_cpa : Option Rat
  perf_expected_cvr : Rat
  perf_expected_clicks : Rat
  perf_expected_conversions : Rat
  combined_score : Rat
deriving Repr, DecidableEq

/-- The CPA `create_smart_plan` uses for its Phase-1 gate
(`analytics.py` lines 967-974): `cpc / batch_cvr` when the creator is in
the batch data (infinite when that CVR is not positive), else the
`performance_data` CPA. -/
def smartCpaOf (cpc : Rat) (m : MatchedCreator) : Option Rat :=
  match m.batch_cvr with
  | some v => if 0 < v then some (cpc / v) else none
  | none => m.perf_expected_cpa

/-- The Phase-1 admission of `create_smart_plan` (`analytics.py` line
977): a creator enters `phase1_creators` only when
`plan_request.target_cpa is not None and expected_cpa <= plan_request.target_cpa`. -/
def phase1Select (cpc : Rat) (target : Option Rat) (ms : List MatchedCreator) :
    List MatchedCreator :=
  ms.filter (fun m =>
    match target with
    | some t =>
      match smartCpaOf cpc m with
      | some v => decide (v ≤ t)
      | none => false
    | none => false)

/-- Ordering on optional CPAs with `none` (infinite) last; used for the
Phase-1 sort.  (When the key is `None` the Python sort would raise; the
claims under study only exercise finite CPAs.) -/
def leCpaKey (a b : Option Rat) : Bool :=
  match a, b with
  | none, none => true
  | none, some _ => false
  | some _, none => true
  | some x, some y => decide (x ≤ y)

/-- `phase1_creators.sort(key=lambda x: x['performance_data']['expected_cpa'])`
(`analytics.py` line 984). -/
def sortPhase1 (ms : List MatchedCreator) : List MatchedCreator :=
  List.insertionSort (fun a b => leCpaKey a.perf_expected_cpa b.perf_expected_cpa = true) ms

/-- One element of `picked_creators` in `create_smart_plan` (the
`PlanCreator` fields that influence control flow and totals). -/
structure SmartEntry where
  creator_id : Nat
  expected_clicks : Rat
  expected_spend : Rat
  expected_conversions : Rat
  value_ratio : Rat
  recommended_placements : Nat
deriving Repr, DecidableEq

/-- `picked_creators` lookup by creator id: the first matching entry
(the linear search of `analytics.py` lines 1117-1121 and 1293-1297). -/
def findEntry (picked : List SmartEntry) (cid : Nat) : Option SmartEntry :=
  picked.find? (fun e => e.creator_id == cid)

/-- Replace the first entry with the given creator id
(`picked_creators[existing_creator] = ...`). -/
def setEntry (picked : List SmartEntry) (cid : Nat) (f : SmartEntry → SmartEntry) :
    List SmartEntry :=
  match picked with
  | [] => []
  | e :: t => if e.creator_id == cid then f e :: t else e :: setEntry t cid f

/-- Mutable state of `create_smart_plan`'s allocation (`analytics.py`
lines 952-958) together with the loop variables that leak between its
passes.  Because the cap check and the rebinding of
`creator`/`performance_data`/`creator_id`/`expected_clicks` inside the
Phase-3 loop (lines 1103-1111) sit in the dead suite of
`if remaining_budget <= 0:` after `break`, the reachable Phase-3 body
(lines 1112-1147) reads the values left behind by the earlier loops:
`creator_id` and `expected_clicks` from the Phase-1 allocation loop
(lines 993 and 999) and `performance_data` from the failure-scan loop
(lines 1033-1051).  These leaked bindings are the `reg_` fields. -/
structure SmartState where
  picked : List SmartEntry
  total_spend : Rat
  total_conversions : Rat
  remaining : Rat
  counts : List (Nat × Nat)
  reg_creator_id : Nat
  reg_expected_clicks : Rat
  reg_perf_conversions : Rat
deriving Repr, DecidableEq

/-- Phase-1 allocation loop of `create_smart_plan` (`analytics.py` lines
987-1025): walk the sorted Phase-1 list, break when the budget is gone,
skip capped creators, and allocate one placement per fitting creator
(setting its placement count to 1).  The loop variables `creator_id`
(line 993, before the cap check) and `expected_clicks` (line 999, after
it) are recorded because Phase 3 reads their final values. -/
def phase1Alloc (cpc : Rat) : List MatchedCreator → SmartState → SmartState
  | [], st => st
  | m :: rest, st =>
    if st.remaining ≤ 0 then st
    else
      let st1 := { st with reg_creator_id := m.creator_id }
      if 3 ≤ getCount st1.counts m.creator_id then phase1Alloc cpc rest st1
      else
        let clicks := m.perf_expected_clicks
        let spend := cpc * clicks
        let conv := m.perf_expected_conversions
        let st2 := { st1 with reg_expected_clicks := clicks }
        if spend ≤ st2.remaining then
          phase1Alloc cpc rest
            { st2 with
              picked := st2.picked ++
                [{ creator_id := m.creator_id
                   expected_clicks := clicks
                   expected_spend := spend
                   expected_conversions := conv
                   value_ratio := m.combined_score
                   recommended_placements := 1 }]
              total_spend := st2.total_spend + spend
              total_conversions := st2.total_conversions + conv
              remaining := st2.remaining - spend
              counts := setCount st2.counts m.creator_id 1 }
        else phase1Alloc cpc rest st2

/-- The failure-scan loop of `create_smart_plan` (`analytics.py` lines
1033-1051).  Its only lasting effect is to leave `performance_data`
bound to the last element of `matched_creators` (the
`target_category_failures` set it builds is never used, because the loop
that was meant to fill `phase2_creators` only rebinds variables, so
`phase2_creators` stays empty). -/
def failScan (ms : List MatchedCreator) (st : SmartState) : SmartState :=
  match ms.getLast? with
  | some m => { st with reg_perf_conversions := m.perf_expected_conversions }
  | none => st

/-- Phase-3 loop of `create_smart_plan` (`analytics.py` lines 1097-1147),
as the mangled indentation makes it execute: it runs once per element of
`phase1_creators + phase2_creators` (the loop variable is otherwise
unread), recomputes `expected_spend = cpc * expected_clicks` from the
leaked `expected_clicks`, reads `expected_conversions` from the leaked
`performance_data`, performs NO placement-cap check (the `continue`
guard at lines 1108-1109 is dead code), and, when the leaked
`creator_id` has an entry in `picked_creators`, overwrites that entry
with metrics multiplied by the incremented placement count. -/
def phase3Loop (cpc : Rat) : Nat → SmartState → SmartState
  | 0, st => st
  | k + 1, st =>
    if st.remaining ≤ 0 then st
    else
      let spend := cpc * st.reg_expected_clicks
      let conv := st.reg_perf_conversions
      if spend ≤ st.remaining then
        match findEntry st.picked st.reg_creator_id with
        | some pc =>
          let n := pc.recommended_placements + 1
          phase3Loop cpc k
            { st with
              picked := setEntry st.picked st.reg_creator_id (fun pc0 =>
                { pc0 with
                  expected_clicks := st.reg_expected_clicks * (n : Rat)
                  expected_spend := spend * (n : Rat)
                  expected_conversions := conv * (n : Rat)
                  recommended_placements := n })
              total_spend := st.total_spend + spend
              total_conversions := st.total_conversions + conv
              remaining := st.remaining - spend
              counts := setCount st.counts st.reg_creator_id n }
        | none => phase3Loop cpc k st
      else phase3Loop cpc k st

/-- A creator row eligible for the vector fallback: its embedding
similarity against the anchors and its conservative click estimate
(`analytics.py` lines 1197-1218). -/
structure VecCand where
  creator_id : Nat
  similarity : Rat
  conservative_click_estimate : Option Rat
deriving Repr, DecidableEq

/-- `creator.conservative_click_estimate or 100` (`analytics.py` lines
1215 and 1217); `none` and `some 0` are falsy. -/
def resolvedClicks (v : VecCand) : Rat :=
  match v.conservative_click_estimate with
  | some e => if e = 0 then 100 else e
  | none => 100

/-- `vector_similarities` (`analytics.py` lines 1186-1224): creators not
already picked, with similarity at least 0.7, sorted by similarity
descending (stable). -/
def vectorSims (picked : List SmartEntry) (vcs : List VecCand) : List VecCand :=
  List.insertionSort (fun a b => b.similarity ≤ a.similarity)
    (vcs.filter (fun v =>
      decide ((7 : Rat) / 10 ≤ v.similarity) &&
        picked.all (fun e => e.creator_id != v.creator_id)))

/-- Phase-4 pass of `create_smart_plan` (`analytics.py` lines 1232-1262):
walk the similarity-ranked fallback creators, break when the budget is
gone, add each fitting creator once with zero expected conversions and
the similarity as `value_ratio`, setting its placement count to 1. -/
def phase4Alloc (cpc : Rat) : List VecCand → SmartState → SmartState
  | [], st => st
  | v :: rest, st =>
    if st.remaining ≤ 0 then st
    else
      let spend := cpc * resolvedClicks v
      if spend ≤ st.remaining then
        phase4Alloc cpc rest
          { st with
            picked := st.picked ++
              [{ creator_id := v.creator_id
                 expected_clicks := resolvedClicks v
                 expected_spend := spend
                 expected_conversions := 0
                 value_ratio := v.similarity
                 recommended_placements := 1 }]
            total_spend := st.total_spend + spend
            total_conversions := st.total_conversions + 0
            remaining := st.remaining - spend
            counts := setCount st.counts v.creator_id 1 }
      else phase4Alloc cpc rest st

/-- The inner scan of the Phase-5 loop (`analytics.py` lines 1276-1291):
first fallback creator under the placement cap whose spend fits. -/
def phase5Find (cpc : Rat) (vsims : List VecCand) (st : SmartState) : Option VecCand :=
  vsims.find? (fun v =>
    decide (getCount st.counts v.creator_id < 3) &&
      decide (cpc * resolvedClicks v ≤ st.remaining))

/-- Phase-5 loop of `create_smart_plan` (`analytics.py` lines 1269-1328):
`while remaining_budget > 0 and iteration < len(vector_similarities) * 3`,
each iteration takes the first under-cap fitting fallback creator and,
when it already has an entry in `picked_creators`, overwrites that entry
with metrics multiplied by the incremented placement count
(`added_creator` is set even when no entry is found, so the loop then
spins on an unchanged state until its iteration bound). -/
def phase5Loop (cpc : Rat) (vsims : List VecCand) : Nat → SmartState → SmartState
  | 0, st => st
  | fuel + 1, st =>
    if st.remaining ≤ 0 then st
    else
      match phase5Find cpc vsims st with
      | none => st
      | some v =>
        match findEntry st.picked v.creator_id with
        | some pc =>
          let spend := cpc * resolvedClicks v
          let n := pc.recommended_placements + 1
          phase5Loop cpc vsims fuel
            { st with
              picked := setEntry st.picked v.creator_id (fun pc0 =>
                { pc0 with
                  expected_clicks := resolvedClicks v * (n : Rat)
                  expected_spend := spend * (n : Rat)
                  expected_conversions := 0 * (n : Rat)
                  recommended_placements := n })
              total_spend := st.total_spend + spend
              total_conversions := st.total_conversions + 0
              remaining := st.remaining - spend
              counts := setCount st.counts v.creator_id n }
        | none => phase5Loop cpc vsims fuel st

/-- The whole allocation of `create_smart_plan` (`analytics.py` lines
952-1330): Phase-1 selection, sort and allocation; the failure scan;
Phase 2 (a no-op: `phase2_creators` is never populated); the Phase-3
loop iterating once per Phase-1/2 element, guarded by
`remaining_budget > 0`; then, when budget remains and anchor vectors
exist, the Phase-4 and Phase-5 vector-fallback passes. -/
def smartAlloc (budget cpc : Rat) (target : Option Rat) (ms : List MatchedCreator)
    (haveAnchors : Bool) (vcs : List VecCand) : SmartState :=
  let p1 := sortPhase1 (phase1Select cpc target ms)
  let st1 := phase1Alloc cpc p1
    { picked := [], total_spend := 0, total_conversions := 0, remaining := budget
      counts := [], reg_creator_id := 0, reg_expected_clicks := 0, reg_perf_conversions := 0 }
  let st2 := failScan ms st1
  let st3 := if 0 < st2.remaining then phase3Loop cpc p1.length st2 else st2
  if 0 < st3.remaining ∧ haveAnchors = true then
    let vsims := vectorSims st3.picked vcs
    phase5Loop cpc vsims (vsims.length * 3) (phase4Alloc cpc vsims st3)
  else st3

/-- The `PlanResponse` of `create_smart_plan`. -/
structure SmartPlanResult where
  picked : List SmartEntry
  total_spend : Rat
  total_conversions : Rat
  blended_cpa : Rat
  budget_utilization : Rat
deriving Repr, DecidableEq

/-- `create_smart_plan` from the matched-creator list to the response
(`analytics.py` lines 941-1358): empty plan when nothing matched,
otherwise the five-phase allocation followed by the recalculated totals
`sum(pc.expected_spend)`, `sum(pc.expected_conversions)` and the final
metrics (lines 1334-1342). -/
def smartPlanRun (budget cpc : Rat) (target : Option Rat) (ms : List MatchedCreator)
    (haveAnchors : Bool) (vcs : List VecCand) : SmartPlanResult :=
  if ms = [] then
    { picked := [], total_spend := 0, total_conversions := 0
      blended_cpa := 0, budget_utilization := 0 }
  else
    let st := smartAlloc budget cpc target ms haveAnchors vcs
    let fts := (st.picked.map (fun e => e.expected_spend)).sum
    let ftc := (st.picked.map (fun e => e.expected_conversions)).sum
    { picked := st.picked
      total_spend := fts
      total_conversions := ftc
      blended_cpa := if 0 < ftc then fts / ftc else 0
      budget_utilization := if 0 < budget then fts / budget else 0 }

/-! ## Theorems -/

/-- Claim C6: for every candidate creator, the classifier of
`SmartMatchingService._get_batch_performance_data` assigns phase 1 iff
same-context clicks or conversions are positive, phase 2 iff that fails
and cross-context clicks or conversions are positive, and phase 3
otherwise. -/
theorem C6_phase_assignment (sc sv cc cv : Int) :
    (classifyPhase sc sv cc cv = 1 ↔ (0 < sc ∨ 0 < sv)) ∧
    (classifyPhase sc sv cc cv = 2 ↔ ¬ (0 < sc ∨ 0 < sv) ∧ (0 < cc ∨ 0 < cv)) ∧
    (classifyPhase sc sv cc cv = 3 ↔ ¬ (0 < sc ∨ 0 < sv) ∧ ¬ (0 < cc ∨ 0 < cv)) := by
  unfold classifyPhase
  by_cases h1 : 0 < sc ∨ 0 < sv
  · simp [h1]
  · by_cases h2 : 0 < cc ∨ 0 < cv
    · simp [h1, h2]
    · simp [h1, h2]

/-- Claim C7 (code bug): the claim states that a creator skew mentioning
only "women" against a target skew mentioning only "men" scores 0, but
`match_gender_skew` tests substring containment and `"men" in "women"`
is true in Python, so the pair scores 0.6.  The remaining rules behave
as claimed on sample inputs: exact match after lower/strip gives 1.0 and
a shared "even" gives 0.8. -/
theorem C7_gender_skew_eval :
    match_gender_skew "women" "men" = 6 / 10 ∧ ((6 : Rat) / 10 ≠ 0) ∧
    match_gender_skew "Men " "men" = 1 ∧
    match_gender_skew "mostly even" "Even" = 8 / 10 := by
  refine ⟨?_, by norm_num, ?_, ?_⟩
  · unfold match_gender_skew
    rw [if_neg (by decide), if_neg (by decide), if_neg (by decide), if_pos (by decide)]
  · unfold match_gender_skew
    rw [if_neg (by decide), if_pos (by decide)]
  · unfold match_gender_skew
    rw [if_neg (by decide), if_neg (by decide), if_pos (by decide)]

/-- The loop counter of `budgetLoop` never exceeds the fuel. -/
theorem budgetLoop_iters_le (stats : List CreatorStat) (fuel : Nat) (st : AllocState) :
    (budgetLoop stats fuel st).2 ≤ fuel := by
  induction fuel generalizing st with
  | zero => simp [budgetLoop]
  | succ n ih =>
    unfold budgetLoop
    by_cases h : st.remaining ≤ 0
    · simp [h]
    · rw [if_neg h]
      cases hf : findFull stats st.counts st.remaining with
      | some c => simpa using Nat.succ_le_succ (ih (allocFull c st))
      | none =>
        cases hp : findPro stats st.counts st.remaining with
        | some c => simpa using Nat.succ_le_succ (ih (proRate c st))
        | none => simp

/-- `budgetLoop` stops immediately once the remaining budget is gone
(the `while remaining_budget > 0` guard). -/
theorem budgetLoop_nonpos (stats : List CreatorStat) (fuel : Nat) (st : AllocState)
    (h : st.remaining ≤ 0) : budgetLoop stats fuel st = (st, 0) := by
  cases fuel with
  | zero => rfl
  | succ n => unfold budgetLoop; rw [if_pos h]

/-- `budgetLoop` leaves the state unchanged when neither a full nor a
pro-rated allocation is available (the `if not added_creator: break`). -/
theorem budgetLoop_stuck (stats : List CreatorStat) (fuel : Nat) (st : AllocState)
    (hf : findFull stats st.counts st.remaining = none)
    (hp : findPro stats st.counts st.remaining = none) :
    (budgetLoop stats fuel st).1 = st := by
  cases fuel with
  | zero => rfl
  | succ n =>
    unfold budgetLoop
    by_cases h : st.remaining ≤ 0
    · rw [if_pos h]
    · rw [if_neg h, hf, hp]

/-- Claim C8: the budget-maximization loop of `create_plan` performs at
most `len(creator_stats) * 3` iterations, stops immediately when the
remaining budget is exhausted, leaves the state unchanged when a full
scan finds neither a full nor a pro-rated allocation, and therefore
terminates on every input. -/
theorem C8_loop_bound :
    (∀ (stats : List CreatorStat) (fuel : Nat) (st : AllocState),
        (budgetLoop stats fuel st).2 ≤ fuel) ∧
    (∀ (budget : Rat) (stats : List CreatorStat),
        createPlanIters budget stats ≤ stats.length * 3) ∧
    (∀ (stats : List CreatorStat) (fuel : Nat) (st : AllocState),
        st.remaining ≤ 0 → budgetLoop stats fuel st = (st, 0)) ∧
    (∀ (stats : List CreatorStat) (fuel : Nat) (st : AllocState),
        findFull stats st.counts st.remaining = none →
        findPro stats st.counts st.remaining = none →
        (budgetLoop stats fuel st).1 = st) :=
  ⟨budgetLoop_iters_le, fun budget stats => budgetLoop_iters_le stats (stats.length * 3) _,
    budgetLoop_nonpos, budgetLoop_stuck⟩

/-- A one-creator stat used to instantiate C8 concretely. -/
def c8stat : CreatorStat :=
  { creator_id := 1, expected_cvr := 1/20, expected_cpa := some 20, clicks_per_day := 1
    expected_clicks := 5, expected_spend := 5, expected_conversions := 1/4, value_ratio := 1/20 }

/-- Witness for C8 at concrete inputs. -/
theorem C8_loop_bound_witness :
    createPlanIters 7 [c8stat] ≤ 1 * 3 ∧
    budgetLoop [] 5 (initState 0) = (initState 0, 0) ∧
    (budgetLoop [] 2 (initState 5)).1 = initState 5 := by
  refine ⟨?_, ?_, ?_⟩
  · simpa using C8_loop_bound.2.1 7 [c8stat]
  · exact C8_loop_bound.2.2.1 [] 5 (initState 0) (by norm_num [initState])
  · exact C8_loop_bound.2.2.2 [] 2 (initState 5) rfl rfl

/-- Claim C9: the planning operation rejects a request, uniformly in the
candidate pool (so before any allocation computation), whenever
budget ≤ 0, target CPA ≤ 0, horizon ≤ 0, neither category nor advertiser
is supplied, or neither cost-per-click nor an insertion reference is
supplied; and the error carries the specific violated constraint, the
first one in the source's checking order. -/
theorem C9_validation_rejects :
    (∀ (req : PlanRequest) (insCpc : Rat) (rs : List RawCreator),
      (req.budget ≤ 0 ∨ (∃ t, req.target_cpa = some t ∧ t ≤ 0) ∨ req.horizon_days ≤ 0 ∨
        (truthyStr req.category = false ∧ truthyInt req.advertiser_id = false) ∨
        (truthyInt req.insertion_id = false ∧ truthyRat req.cpc = false)) →
      ∃ msg, createPlanModel req insCpc rs = Except.error msg) ∧
    (∀ (req : PlanRequest) (insCpc : Rat) (rs : List RawCreator),
      truthyStr req.category = false → truthyInt req.advertiser_id = false →
      createPlanModel req insCpc rs =
        Except.error "Either category or advertiser_id must be provided") ∧
    (∀ (req : PlanRequest) (insCpc : Rat) (rs : List RawCreator),
      (truthyStr req.category || truthyInt req.advertiser_id) = true →
      truthyInt req.insertion_id = false → truthyRat req.cpc = false →
      createPlanModel req insCpc rs =
        Except.error "Either insertion_id or cpc must be provided") ∧
    (∀ (req : PlanRequest) (insCpc : Rat) (rs : List RawCreator),
      (truthyStr req.category || truthyInt req.advertiser_id) = true →
      (truthyInt req.insertion_id || truthyRat req.cpc) = true →
      req.budget ≤ 0 →
      createPlanModel req insCpc rs = Except.error "Budget must be greater than 0") ∧
    (∀ (req : PlanRequest) (insCpc : Rat) (rs : List RawCreator) (t : Rat),
      (truthyStr req.category || truthyInt req.advertiser_id) = true →
      (truthyInt req.insertion_id || truthyRat req.cpc) = true →
      0 < req.budget → req.target_cpa = some t → t ≤ 0 →
      createPlanModel req insCpc rs = Except.error "Target CPA must be greater than 0") ∧
    (∀ (req : PlanRequest) (insCpc : Rat) (rs : List RawCreator),
      (truthyStr req.category || truthyInt req.advertiser_id) = true →
      (truthyInt req.insertion_id || truthyRat req.cpc) = true →
      0 < req.budget → (∀ t, req.target_cpa = some t → 0 < t) → req.horizon_days ≤ 0 →
      createPlanModel req insCpc rs =
        Except.error "Horizon days must be greater than 0") := by
  have herr : ∀ (req : PlanRequest) (insCpc : Rat) (rs : List RawCreator) (msg : String),
      validateRequest req = Except.error msg →
      createPlanModel req insCpc rs = Except.error msg := by
    intro req insCpc rs msg h
    unfold createPlanModel
    rw [h]
  have hcat : ∀ req : PlanRequest, truthyStr req.category = false →
      truthyInt req.advertiser_id = false →
      validateRequest req = Except.error "Either category or advertiser_id must be provided" := by
    intro req h1 h2
    unfold validateRequest
    rw [if_pos (by simp [h1, h2])]
  have hcpc : ∀ req : PlanRequest,
      (truthyStr req.category || truthyInt req.advertiser_id) = true →
      truthyInt req.insertion_id = false → truthyRat req.cpc = false →
      validateRequest req = Except.error "Either insertion_id or cpc must be provided" := by
    intro req h0 h1 h2
    unfold validateRequest
    rw [if_neg (by simp [h0]), if_pos (by simp [h1, h2])]
  have hbud : ∀ req : PlanRequest,
      (truthyStr req.category || truthyInt req.advertiser_id) = true →
      (truthyInt req.insertion_id || truthyRat req.cpc) = true →
      req.budget ≤ 0 →
      validateRequest req = Except.error "Budget must be greater than 0" := by
    intro req h0 h1 h2
    unfold validateRequest
    rw [if_neg (by simp [h0]), if_neg (by simp [h1]), if_pos h2]
  have htgt : ∀ (req : PlanRequest) (t : Rat),
      (truthyStr req.category || truthyInt req.advertiser_id) = true →
      (truthyInt req.insertion_id || truthyRat req.cpc) = true →
      0 < req.budget → req.target_cpa = some t → t ≤ 0 →
      validateRequest req = Except.error "Target CPA must be greater than 0" := by
    intro req t h0 h1 h2 h3 h4
    unfold validateRequest
    rw [if_neg (by simp [h0]), if_neg (by simp [h1]), if_neg (by simp; exact h2),
      if_pos (by rw [h3]; simpa using h4)]
  have hhor : ∀ req : PlanRequest,
      (truthyStr req.category || truthyInt req.advertiser_id) = true →
      (truthyInt req.insertion_id || truthyRat req.cpc) = true →
      0 < req.budget → (∀ t, req.target_cpa = some t → 0 < t) → req.horizon_days ≤ 0 →
      validateRequest req = Except.error "Horizon days must be greater than 0" := by
    intro req h0 h1 h2 h3 h4
    unfold validateRequest
    rw [if_neg (by simp [h0]), if_neg (by simp [h1]), if_neg (by simp; exact h2),
      if_neg ?_, if_pos h4]
    cases ht : req.target_cpa with
    | none => simp
    | some t =>
      have := h3 t ht
      simp [not_le.mpr this]
  refine ⟨?_, fun req i rs h1 h2 => herr _ _ _ _ (hcat req h1 h2),
    fun req i rs h0 h1 h2 => herr _ _ _ _ (hcpc req h0 h1 h2),
    fun req i rs h0 h1 h2 => herr _ _ _ _ (hbud req h0 h1 h2),
    fun req i rs t h0 h1 h2 h3 h4 => herr _ _ _ _ (htgt req t h0 h1 h2 h3 h4),
    fun req i rs h0 h1 h2 h3 h4 => herr _ _ _ _ (hhor req h0 h1 h2 h3 h4)⟩
  intro req insCpc rs h
  by_cases h1 : truthyStr req.category = false ∧ truthyInt req.advertiser_id = false
  · exact ⟨_, herr _ _ _ _ (hcat req h1.1 h1.2)⟩
  · have h1t : (truthyStr req.category || truthyInt req.advertiser_id) = true := by
      cases hc : truthyStr req.category with
      | true => simp
      | false =>
        cases ha : truthyInt req.advertiser_id with
        | true => simp
        | false => exact absurd ⟨hc, ha⟩ h1
    by_cases h2 : truthyInt req.insertion_id = false ∧ truthyRat req.cpc = false
    · exact ⟨_, herr _ _ _ _ (hcpc req h1t h2.1 h2.2)⟩
    · have h2t : (truthyInt req.insertion_id || truthyRat req.cpc) = true := by
        cases hc : truthyInt req.insertion_id with
        | true => simp
        | false =>
          cases ha : truthyRat req.cpc with
          | true => simp
          | false => exact absurd ⟨hc, ha⟩ h2
      by_cases h3 : req.budget ≤ 0
      · exact ⟨_, herr _ _ _ _ (hbud req h1t h2t h3)⟩
      · by_cases h4 : ∃ t, req.target_cpa = some t ∧ t ≤ 0
        · obtain ⟨t, ht, htle⟩ := h4
          exact ⟨_, herr _ _ _ _ (htgt req t h1t h2t (lt_of_not_le h3) ht htle)⟩
        · by_cases h5 : req.horizon_days ≤ 0
          · refine ⟨_, herr _ _ _ _ (hhor req h1t h2t (lt_of_not_le h3) ?_ h5)⟩
            intro t ht
            by_contra hle
            exact h4 ⟨t, ht, le_of_not_lt hle⟩
          · rcases h with hb | hT | hh | hca | hic
            · exact absurd hb h3
            · exact absurd hT h4
            · exact absurd hh h5
            · exact absurd hca h1
            · exact absurd hic h2

/-- A request violating only the budget constraint, used to instantiate
C9 concretely. -/
def c9req : PlanRequest :=
  { category := some "Fitness", advertiser_id := none, insertion_id := none
    cpc := some 2, budget := -5, target_cpa := some 10
    advertiser_avg_cvr := none, horizon_days := 30 }

/-- A request with no category/advertiser. -/
def c9reqCat : PlanRequest := { c9req with budget := 100, category := none }

/-- A request with a falsy cpc and no insertion. -/
def c9reqCpc : PlanRequest := { c9req with budget := 100, cpc := some 0 }

/-- A request with a non-positive target CPA. -/
def c9reqTgt : PlanRequest := { c9req with budget := 100, target_cpa := some 0 }

/-- A request with a non-positive horizon. -/
def c9reqHor : PlanRequest :=
  { c9req with budget := 100, horizon_days := 0, target_cpa := none }

/-- Witness for C9 at concrete inputs. -/
theorem C9_validation_rejects_witness :
    createPlanModel c9req 1 [] = Except.error "Budget must be greater than 0" ∧
    createPlanModel c9reqCat 1 [] =
      Except.error "Either category or advertiser_id must be provided" ∧
    createPlanModel c9reqCpc 1 [] =
      Except.error "Either insertion_id or cpc must be provided" ∧
    createPlanModel c9reqTgt 1 [] =
      Except.error "Target CPA must be greater than 0" ∧
    createPlanModel c9reqHor 1 [] =
      Except.error "Horizon days must be greater than 0" ∧
    (∃ msg, createPlanModel c9reqCat 2 [] = Except.error msg) := by
  refine ⟨?_, ?_, ?_, ?_, ?_, ?_⟩
  · exact C9_validation_rejects.2.2.2.1 c9req 1 [] (by decide) (by decide) (by norm_num [c9req])
  · exact C9_validation_rejects.2.1 c9reqCat 1 [] (by decide) (by decide)
  · exact C9_validation_rejects.2.2.1 c9reqCpc 1 [] (by decide) (by decide) (by decide)
  · exact C9_validation_rejects.2.2.2.2.1 c9reqTgt 1 [] 0 (by decide) (by decide)
      (by norm_num [c9reqTgt, c9req]) rfl le_rfl
  · exact C9_validation_rejects.2.2.2.2.2 c9reqHor 1 [] (by decide) (by decide)
      (by norm_num [c9reqHor, c9req])
      (by intro t ht; exact absurd ht (by simp [c9reqHor, c9req]))
      (by norm_num [c9reqHor, c9req])
  · exact C9_validation_rejects.1 c9reqCat 2 []
      (Or.inr (Or.inr (Or.inr (Or.inl (by decide)))))

/-- A single creator stat with `expected_spend = 100`, as in the spec's
pro-rating scenario. -/
def c3stat : CreatorStat :=
  { creator_id := 1, expected_cvr := 1/20, expected_cpa := some 20, clicks_per_day := 10/3
    expected_clicks := 100, expected_spend := 100, expected_conversions := 5, value_ratio := 1/20 }

/-- Counterexample to claim C3 as stated: with budget 110 and one
creator whose placement costs 100, after the full first placement the
remaining budget is 10 and the fractional ratio is exactly
`10 / 100 = 0.1`.  The claim says a ratio of exactly 0.1 still pro-rates
(consuming all remaining budget, utilization 1), but the source tests
`pro_ratio > 0.1` strictly (`analytics.py` line 811), so no second,
fractional placement is created and the spend stays at 100. -/
theorem C3_prorate_counterexample :
    (10 : Rat) / 100 = 1 / 10 ∧
    (createPlanAlloc 110 [c3stat]).picked.length = 1 ∧
    (createPlanAlloc 110 [c3stat]).total_spend = 100 ∧
    (createPlanAlloc 110 [c3stat]).budget_utilization = 10 / 11 := by
  refine ⟨by norm_num, ?_, ?_, ?_⟩ <;>
    norm_num [createPlanAlloc, budgetLoop, firstPass, initState, findFull, findPro, allocFull,
      proRate, getCount, setCount, c3stat]

/-- Claim C3 as amended: the pro-rating step fires only when the first
eligible candidate's fractional ratio strictly exceeds 0.1; it then
allocates exactly one fractional placement with clicks and conversions
scaled by `remaining / expected_spend` and spend equal to the whole
remaining budget, zeroes the remaining budget, and the loop stops.  The
spec's budget-150 scenario (ratio 0.5 > 0.1) still yields
`budget_utilization = 1`. -/
theorem C3_prorate_amended :
    (∀ (stats : List CreatorStat) (st : AllocState) (fuel : Nat) (c : CreatorStat),
      0 < st.remaining →
      findFull stats st.counts st.remaining = none →
      findPro stats st.counts st.remaining = some c →
      (budgetLoop stats (fuel + 1) st).1 =
        { picked := st.picked ++
            [{ c with
                expected_clicks := c.expected_clicks * (st.remaining / c.expected_spend)
                expected_spend := st.remaining
                expected_conversions := c.expected_conversions * (st.remaining / c.expected_spend) }]
          total_spend := st.total_spend + st.remaining
          total_conversions :=
            st.total_conversions + c.expected_conversions * (st.remaining / c.expected_spend)
          remaining := 0
          counts := setCount st.counts c.creator_id (getCount st.counts c.creator_id + 1) }) ∧
    (createPlanAlloc 150 [c3stat]).budget_utilization = 1 := by
  constructor
  · intro stats st fuel c h0 hf hp
    unfold budgetLoop
    rw [if_neg (not_le.mpr h0), hf, hp]
    have hz : (proRate c st).remaining ≤ 0 := by simp [proRate]
    simp only [budgetLoop_nonpos stats fuel (proRate c st) hz]
    simp [proRate]
  · norm_num [createPlanAlloc, budgetLoop, firstPass, initState, findFull, findPro, allocFull,
      proRate, getCount, setCount, c3stat]

/-- The allocation state after the first pass in the budget-150 scenario:
one full placement taken, 50 remaining. -/
def c3midState : AllocState :=
  { picked := [c3stat], total_spend := 100, total_conversions := 5
    remaining := 50, counts := [(1, 1)] }

/-- Witness for the amended C3 at the concrete budget-150 scenario state. -/
theorem C3_prorate_amended_witness :
    (budgetLoop [c3stat] 3 c3midState).1 =
      { picked := [c3stat,
          { creator_id := 1, expected_cvr := 1/20, expected_cpa := some 20, clicks_per_day := 10/3
            expected_clicks := 50, expected_spend := 50, expected_conversions := 5/2
            value_ratio := 1/20 }]
        total_spend := 150, total_conversions := 15/2, remaining := 0, counts := [(1, 2)] } := by
  have h := C3_prorate_amended.1 [c3stat] c3midState 2 c3stat
    (by norm_num [c3midState])
    (by norm_num [findFull, getCount, c3stat, c3midState])
    (by norm_num [findPro, getCount, c3stat, c3midState])
  rw [show (3 : Nat) = 2 + 1 from rfl, h]
  norm_num [c3stat, c3midState, getCount, setCount]

/-- Every creator id appearing in `firstPass` output satisfies any
predicate holding on the initial picks and on the stats list. -/
theorem firstPass_picked_pred (p : Nat → Prop) :
    ∀ (stats : List CreatorStat) (st : AllocState),
    (∀ e ∈ st.picked, p e.creator_id) → (∀ c ∈ stats, p c.creator_id) →
    ∀ e ∈ (firstPass stats st).picked, p e.creator_id := by
  intro stats
  induction stats with
  | nil => intro st h1 _ e he; exact h1 e he
  | cons c rest ih =>
    intro st h1 h2
    unfold firstPass
    by_cases hc : 3 ≤ getCount st.counts c.creator_id
    · rw [if_pos hc]
      exact ih st h1 (fun d hd => h2 d (List.mem_cons_of_mem c hd))
    · rw [if_neg hc]
      by_cases hfit : c.expected_spend ≤ st.remaining
      · rw [if_pos hfit]
        refine ih (allocFull c st) ?_ (fun d hd => h2 d (List.mem_cons_of_mem c hd))
        intro e he
        rcases List.mem_append.mp he with h | h
        · exact h1 e h
        · have he2 : e = c := List.mem_singleton.mp h
          rw [he2]
          exact h2 c (List.mem_cons_self c rest)
      · rw [if_neg hfit]
        exact ih st h1 (fun d hd => h2 d (List.mem_cons_of_mem c hd))

/-- Every creator id appearing in the budget-maximization loop's output
satisfies any predicate holding on the incoming picks and on the stats
list (both full and pro-rated allocations come from `creator_stats`). -/
theorem budgetLoop_picked_pred (p : Nat → Prop) (stats : List CreatorStat) :
    ∀ (fuel : Nat) (st : AllocState),
    (∀ e ∈ st.picked, p e.creator_id) → (∀ c ∈ stats, p c.creator_id) →
    ∀ e ∈ (budgetLoop stats fuel st).1.picked, p e.creator_id := by
  intro fuel
  induction fuel with
  | zero => intro st h1 _ e he; exact h1 e he
  | succ n ih =>
    intro st h1 h2
    unfold budgetLoop
    by_cases h : st.remaining ≤ 0
    · rw [if_pos h]; exact h1
    · rw [if_neg h]
      cases hf : findFull stats st.counts st.remaining with
      | some c =>
        have hcm : c ∈ stats := List.mem_of_find?_eq_some hf
        refine ih (allocFull c st) ?_ h2
        intro e he
        rcases List.mem_append.mp he with hm | hm
        · exact h1 e hm
        · have he2 : e = c := List.mem_singleton.mp hm
          rw [he2]
          exact h2 c hcm
      | none =>
        cases hp : findPro stats st.counts st.remaining with
        | some c =>
          have hcm : c ∈ stats := List.mem_of_find?_eq_some hp
          refine ih (proRate c st) ?_ h2
          intro e he
          simp only [proRate] at he
          rcases List.mem_append.mp he with hm | hm
          · exact h1 e hm
          · have he2 := List.mem_singleton.mp hm
            rw [he2]
            simpa using h2 c hcm
        | none => exact h1

/-- `buildStat` keeps the creator id of its input row. -/
theorem buildStat_id (cpc acvr : Rat) (target : Option Rat) (horizon : Rat)
    (r : RawCreator) (s : CreatorStat) (h : buildStat cpc acvr target horizon r = some s) :
    s.creator_id = r.creator_id := by
  unfold buildStat at h
  split at h
  · exact absurd h (by simp)
  · dsimp only at h
    split at h
    · cases h
      rfl
    · exact absurd h (by simp)

/-- A creator whose same-context clicks are zero and whose conservative
estimate is falsy yields no click total. -/
theorem effectiveClicks_none (r : RawCreator) (hc : r.total_clicks = 0)
    (he : r.conservative_click_estimate = none ∨ r.conservative_click_estimate = some 0) :
    effectiveClicks r = none := by
  unfold effectiveClicks
  rw [if_pos hc]
  rcases he with he | he <;> rw [he] <;> simp

/-- Claim C10: in `create_plan`, a candidate whose same-context clicks
total 0 and whose `conservative_click_estimate` is absent (null or 0) is
removed from `creator_stats` before the CVR/CPA computation and ranking,
and no allocation in the resulting plan carries its creator id. -/
theorem C10_zero_click_exclusion (budget cpc acvr : Rat) (target : Option Rat)
    (horizon : Rat) (rs : List RawCreator) (cid : Nat)
    (h : ∀ r ∈ rs, r.creator_id = cid → r.total_clicks = 0 ∧
      (r.conservative_click_estimate = none ∨ r.conservative_click_estimate = some 0)) :
    (∀ s ∈ buildStats cpc acvr target horizon rs, s.creator_id ≠ cid) ∧
    (∀ e ∈ (createPlanRun budget cpc acvr target horizon rs).picked, e.creator_id ≠ cid) := by
  have hstats : ∀ s ∈ buildStats cpc acvr target horizon rs, s.creator_id ≠ cid := by
    intro s hs hsid
    obtain ⟨r, hr, hrs⟩ := List.mem_filterMap.mp hs
    have hid : r.creator_id = cid := by rw [← buildStat_id cpc acvr target horizon r s hrs, hsid]
    obtain ⟨hc, he⟩ := h r hr hid
    rw [buildStat, effectiveClicks_none r hc he] at hrs
    exact absurd hrs (by simp)
  refine ⟨hstats, ?_⟩
  have hsorted : ∀ s ∈ sortStats target (buildStats cpc acvr target horizon rs),
      s.creator_id ≠ cid := by
    intro s hs
    refine hstats s ?_
    unfold sortStats at hs
    cases target with
    | none => exact (List.perm_insertionSort _ _).mem_iff.mp hs
    | some t => exact (List.perm_insertionSort _ _).mem_iff.mp hs
  intro e he
  refine budgetLoop_picked_pred (fun n => n ≠ cid) _ _ _ ?_ hsorted e he
  intro d hd
  refine firstPass_picked_pred (fun n => n ≠ cid) _ (initState budget) ?_ hsorted d hd
  intro x hx
  exact absurd hx (by simp [initState])

/-- Budget-accounting invariant of `create_plan`'s allocation:
spent plus remaining equals the budget, and both are non-negative. -/
def SpendInv (b : Rat) (st : AllocState) : Prop :=
  st.total_spend + st.remaining = b ∧ 0 ≤ st.remaining ∧ 0 ≤ st.total_spend

/-- `allocFull` preserves the budget accounting when the placement fits
and costs a non-negative amount. -/
theorem allocFull_spendInv (b : Rat) (c : CreatorStat) (st : AllocState)
    (hcs : 0 ≤ c.expected_spend) (hfit : c.expected_spend ≤ st.remaining)
    (hi : SpendInv b st) : SpendInv b (allocFull c st) := by
  obtain ⟨h1, h2, h3⟩ := hi
  refine ⟨?_, ?_, ?_⟩
  · simp only [allocFull]
    linarith
  · simp only [allocFull]
    linarith
  · simp only [allocFull]
    linarith

/-- The first pass preserves the budget accounting. -/
theorem firstPass_spendInv (b : Rat) :
    ∀ (stats : List CreatorStat) (st : AllocState),
    (∀ c ∈ stats, 0 ≤ c.expected_spend) → SpendInv b st → SpendInv b (firstPass stats st) := by
  intro stats
  induction stats with
  | nil => intro st _ h; exact h
  | cons c rest ih =>
    intro st hs hi
    unfold firstPass
    by_cases hc : 3 ≤ getCount st.counts c.creator_id
    · rw [if_pos hc]
      exact ih st (fun d hd => hs d (List.mem_cons_of_mem c hd)) hi
    · rw [if_neg hc]
      by_cases hfit : c.expected_spend ≤ st.remaining
      · rw [if_pos hfit]
        exact ih _ (fun d hd => hs d (List.mem_cons_of_mem c hd))
          (allocFull_spendInv b c st (hs c (List.mem_cons_self c rest)) hfit hi)
      · rw [if_neg hfit]
        exact ih st (fun d hd => hs d (List.mem_cons_of_mem c hd)) hi

/-- The budget-maximization loop preserves the budget accounting. -/
theorem budgetLoop_spendInv (b : Rat) (stats : List CreatorStat) :
    ∀ (fuel : Nat) (st : AllocState),
    (∀ c ∈ stats, 0 ≤ c.expected_spend) → SpendInv b st →
    SpendInv b (budgetLoop stats fuel st).1 := by
  intro fuel
  induction fuel with
  | zero => intro st _ h; exact h
  | succ n ih =>
    intro st hs hi
    unfold budgetLoop
    by_cases h : st.remaining ≤ 0
    · rw [if_pos h]; exact hi
    · rw [if_neg h]
      cases hf : findFull stats st.counts st.remaining with
      | some c =>
        have hpred := List.find?_some hf
        simp only [Bool.and_eq_true, decide_eq_true_eq] at hpred
        have hcm : c ∈ stats := List.mem_of_find?_eq_some hf
        exact ih (allocFull c st) hs (allocFull_spendInv b c st (hs c hcm) hpred.2 hi)
      | none =>
        cases hp : findPro stats st.counts st.remaining with
        | some c =>
          obtain ⟨h1, h2, h3⟩ := hi
          refine ih (proRate c st) hs ⟨?_, ?_, ?_⟩
          · simp only [proRate]
            linarith
          · simp [proRate]
          · simp only [proRate]
            linarith
        | none => exact hi

/-- The allocator of `create_plan` never spends more than the budget and
keeps `budget_utilization` within `[0, 1]` whenever the budget is
positive and every candidate's expected spend is non-negative. -/
theorem createPlanAlloc_bounds (budget : Rat) (stats : List CreatorStat)
    (hb : 0 < budget) (hs : ∀ c ∈ stats, 0 ≤ c.expected_spend) :
    (createPlanAlloc budget stats).total_spend ≤ budget ∧
    0 ≤ (createPlanAlloc budget stats).budget_utilization ∧
    (createPlanAlloc budget stats).budget_utilization ≤ 1 := by
  have hinit : SpendInv budget (initState budget) := by
    refine ⟨?_, le_of_lt hb, le_refl 0⟩
    simp [initState]
  have hinv := budgetLoop_spendInv budget stats (stats.length * 3)
    (firstPass stats (initState budget)) hs
    (firstPass_spendInv budget stats (initState budget) hs hinit)
  obtain ⟨h1, h2, h3⟩ := hinv
  have hle : (budgetLoop stats (stats.length * 3) (firstPass stats (initState budget))).1.total_spend
      ≤ budget := by linarith
  refine ⟨hle, ?_, ?_⟩
  · simp only [createPlanAlloc, if_pos hb]
    exact div_nonneg h3 (le_of_lt hb)
  · simp only [createPlanAlloc, if_pos hb]
    exact (div_le_one hb).mpr hle

/-- Stats built by `create_plan` cost a non-negative amount whenever the
CPC and horizon are non-negative. -/
theorem buildStat_spend_nonneg (cpc acvr : Rat) (target : Option Rat) (horizon : Rat)
    (r : RawCreator) (s : CreatorStat) (hc : 0 ≤ cpc) (hh : 0 ≤ horizon)
    (h : buildStat cpc acvr target horizon r = some s) : 0 ≤ s.expected_spend := by
  unfold buildStat at h
  split at h
  · exact absurd h (by simp)
  · dsimp only at h
    split at h
    · cases h
      refine mul_nonneg hc (mul_nonneg (div_nonneg (Nat.cast_nonneg _) (Nat.cast_nonneg _)) hh)
    · exact absurd h (by simp)

/-- Everything in the filter-and-sort pipeline of `create_plan` has
non-negative expected spend. -/
theorem sortedStats_spend_nonneg (cpc acvr : Rat) (target : Option Rat) (horizon : Rat)
    (rs : List RawCreator) (hc : 0 ≤ cpc) (hh : 0 ≤ horizon) :
    ∀ c ∈ sortStats target (buildStats cpc acvr target horizon rs), 0 ≤ c.expected_spend := by
  intro c hcm
  have hmem : c ∈ buildStats cpc acvr target horizon rs := by
    unfold sortStats at hcm
    cases target with
    | none => exact (List.perm_insertionSort _ _).mem_iff.mp hcm
    | some t => exact (List.perm_insertionSort _ _).mem_iff.mp hcm
  obtain ⟨r, _, hrs⟩ := List.mem_filterMap.mp hmem
  exact buildStat_spend_nonneg cpc acvr target horizon r c hc hh hrs

/-- With a target CPA supplied, every stat `create_plan` admits has a
finite expected CPA at most the target. -/
theorem buildStats_cpa_le (cpc acvr : Rat) (t horizon : Rat) (rs : List RawCreator)
    (s : CreatorStat) (h : s ∈ buildStats cpc acvr (some t) horizon rs) :
    ∃ v, s.expected_cpa = some v ∧ v ≤ t := by
  obtain ⟨r, _, hrs⟩ := List.mem_filterMap.mp h
  unfold buildStat at hrs
  split at hrs
  · exact absurd hrs (by simp)
  · dsimp only at hrs
    split at hrs
    · next hp =>
      cases hrs
      unfold passesCpa at hp
      cases hcpa : expectedCpaOf cpc (expectedCvrOf acvr _ r) with
      | none => rw [hcpa] at hp; exact absurd hp (by simp)
      | some v =>
        rw [hcpa] at hp
        exact ⟨v, rfl, of_decide_eq_true hp⟩
    · exact absurd hrs (by simp)

/-- Creator A of the spec's Phase-1 scenario: cvr 0.10, 100 clicks, so
CPA 10 at cpc 1. -/
def c4rawA : RawCreator :=
  { creator_id := 1, total_clicks := 100, conservative_click_estimate := none
    total_conversions := 10, overall_clicks := 0, overall_conversions := 0
    historical_days := none }

/-- Creator B of the spec's Phase-1 scenario: cvr 0.02, 100 clicks, so
CPA 50 at cpc 1. -/
def c4rawB : RawCreator :=
  { creator_id := 2, total_clicks := 100, conservative_click_estimate := none
    total_conversions := 2, overall_clicks := 0, overall_conversions := 0
    historical_days := none }

/-- Matched-creator records for the same two creators as
`create_smart_plan` sees them. -/
def c4matA : MatchedCreator :=
  { creator_id := 1, batch_cvr := none, perf_expected_cpa := some 10
    perf_expected_cvr := 1/10, perf_expected_clicks := 100
    perf_expected_conversions := 10, combined_score := 1/2 }

/-- Matched-creator record for creator B. -/
def c4matB : MatchedCreator :=
  { creator_id := 2, batch_cvr := none, perf_expected_cpa := some 50
    perf_expected_cvr := 1/50, perf_expected_clicks := 100
    perf_expected_conversions := 2, combined_score := 1/2 }

/-- The ranked stats of the A/B scenario with no target CPA: both
admitted, A (cvr 0.10, cpa 10) ranked before B (cvr 0.02, cpa 50). -/
theorem c4_sorted_stats :
    sortStats none (buildStats 1 (1/40) none 30 [c4rawA, c4rawB]) =
      [{ creator_id := 1, expected_cvr := 1/10, expected_cpa := some 10, clicks_per_day := 10/3
         expected_clicks := 100, expected_spend := 100, expected_conversions := 10
         value_ratio := 1/10 },
       { creator_id := 2, expected_cvr := 1/50, expected_cpa := some 50, clicks_per_day := 10/3
         expected_clicks := 100, expected_spend := 100, expected_conversions := 2
         value_ratio := 1/50 }] := by
  norm_num [sortStats, buildStats, buildStat, effectiveClicks, expectedCvrOf, expectedCpaOf,
    passesCpa, resolveDays, c4rawA, c4rawB, List.filterMap, List.insertionSort,
    List.orderedInsert]

set_option maxHeartbeats 1600000 in
/-- Claim C4 (code bug): with a target CPA supplied, `create_plan`
admits exactly the candidates whose CPA is at most the target (soundness
proved generally, completeness shown on the A/B scenario); with no
target CPA `create_plan` admits everyone and allocates A (cpa 10) before
B (cpa 50).  But `create_smart_plan`'s Phase-1 gate
(`analytics.py` line 977) requires `target_cpa is not None`, so with no
target CPA it admits NO candidate into Phase 1 — the opposite of the
claim — which is proved here for every candidate list. -/
theorem C4_phase1_admission :
    (∀ (cpc : Rat) (ms : List MatchedCreator), phase1Select cpc none ms = []) ∧
    phase1Select 1 none [c4matA, c4matB] = [] ∧
    (∀ (cpc acvr : Rat) (t horizon : Rat) (rs : List RawCreator) (s : CreatorStat),
      s ∈ buildStats cpc acvr (some t) horizon rs → ∃ v, s.expected_cpa = some v ∧ v ≤ t) ∧
    ((buildStats 1 (1/40) (some 20) 30 [c4rawA, c4rawB]).map (fun s => s.creator_id) = [1]) ∧
    ((buildStats 1 (1/40) none 30 [c4rawA, c4rawB]).map (fun s => s.creator_id) = [1, 2]) ∧
    ((sortStats none (buildStats 1 (1/40) none 30 [c4rawA, c4rawB])).map
        (fun s => s.creator_id) = [1, 2]) ∧
    ((createPlanRun 1000 1 (1/40) none 30 [c4rawA, c4rawB]).picked.map
        (fun s => s.creator_id) = [1, 2, 1, 1, 2, 2]) := by
  refine ⟨?_, ?_, buildStats_cpa_le, ?_, ?_, ?_, ?_⟩
  · intro cpc ms
    unfold phase1Select
    induction ms with
    | nil => rfl
    | cons m rest ih => simpa [List.filter] using ih
  · unfold phase1Select
    simp [List.filter]
  · norm_num [buildStats, buildStat, effectiveClicks, expectedCvrOf, expectedCpaOf, passesCpa,
      resolveDays, c4rawA, c4rawB, List.filterMap]
  · norm_num [buildStats, buildStat, effectiveClicks, expectedCvrOf, expectedCpaOf, passesCpa,
      resolveDays, c4rawA, c4rawB, List.filterMap]
  · rw [c4_sorted_stats]
    rfl
  · unfold createPlanRun
    rw [c4_sorted_stats]
    norm_num [createPlanAlloc, budgetLoop, firstPass, initState, findFull,
      findPro, allocFull, proRate, getCount, setCount]

/-- The include pass never removes anything. -/
theorem addIncluded_mono (inc : List String) :
    ∀ (rest acc : List PoolCreator) (x : PoolCreator), x ∈ acc → x ∈ addIncluded inc rest acc := by
  intro rest
  induction rest with
  | nil => intro acc x h; exact h
  | cons c rest ih =>
    intro acc x h
    unfold addIncluded
    by_cases hc : stripStr c.acct_id ∈ inc ∧ ¬ (acc.any fun d => d.creator_id == c.creator_id)
    · rw [if_pos hc]
      exact ih (acc ++ [c]) x (List.mem_append.mpr (Or.inl h))
    · rw [if_neg hc]
      exact ih acc x h

/-- Everything the include pass returns is either already accumulated or
a pool creator whose stripped account id is on the include list. -/
theorem addIncluded_sub (inc : List String) :
    ∀ (rest acc : List PoolCreator) (x : PoolCreator), x ∈ addIncluded inc rest acc →
    x ∈ acc ∨ (x ∈ rest ∧ stripStr x.acct_id ∈ inc) := by
  intro rest
  induction rest with
  | nil => intro acc x h; exact Or.inl h
  | cons c rest ih =>
    intro acc x h
    unfold addIncluded at h
    by_cases hc : stripStr c.acct_id ∈ inc ∧ ¬ (acc.any fun d => d.creator_id == c.creator_id)
    · rw [if_pos hc] at h
      rcases ih (acc ++ [c]) x h with hm | ⟨hm, hi⟩
      · rcases List.mem_append.mp hm with hm | hm
        · exact Or.inl hm
        · have hx : x = c := List.mem_singleton.mp hm
          rw [hx]
          exact Or.inr ⟨List.mem_cons_self c rest, hc.1⟩
      · exact Or.inr ⟨List.mem_cons_of_mem c hm, hi⟩
    · rw [if_neg hc] at h
      rcases ih acc x h with hm | ⟨hm, hi⟩
      · exact Or.inl hm
      · exact Or.inr ⟨List.mem_cons_of_mem c hm, hi⟩

/-- The include pass does add a pool creator on the include list when no
accumulated creator carries its id and pool ids are distinct. -/
theorem addIncluded_complete (inc : List String) :
    ∀ (rest acc : List PoolCreator) (c : PoolCreator), c ∈ rest →
    stripStr c.acct_id ∈ inc →
    (∀ d ∈ acc, d.creator_id ≠ c.creator_id) →
    (rest.map (fun d => d.creator_id)).Nodup →
    c ∈ addIncluded inc rest acc := by
  intro rest
  induction rest with
  | nil => intro acc c h; exact absurd h (List.not_mem_nil c)
  | cons x rest ih =>
    intro acc c hm hi hacc hnd
    rcases List.mem_cons.mp hm with hceq | hmem
    · subst hceq
      have hcond : stripStr c.acct_id ∈ inc ∧
          ¬ (acc.any fun d => d.creator_id == c.creator_id) := by
        refine ⟨hi, ?_⟩
        intro hany
        simp only [List.any_eq_true, beq_iff_eq] at hany
        obtain ⟨d, hd, hdc⟩ := hany
        exact hacc d hd hdc
      unfold addIncluded
      rw [if_pos hcond]
      exact addIncluded_mono inc rest (acc ++ [c]) c
        (List.mem_append.mpr (Or.inr (List.mem_singleton.mpr rfl)))
    · have hxid : x.creator_id ≠ c.creator_id := by
        intro hxc
        have hnm : x.creator_id ∉ rest.map (fun d => d.creator_id) :=
          (List.nodup_cons.mp (by simpa using hnd)).1
        exact hnm (by rw [hxc]; exact List.mem_map_of_mem _ hmem)
      have hndt : (rest.map (fun d => d.creator_id)).Nodup :=
        (List.nodup_cons.mp (by simpa using hnd)).2
      unfold addIncluded
      by_cases hc : stripStr x.acct_id ∈ inc ∧ ¬ (acc.any fun d => d.creator_id == x.creator_id)
      · rw [if_pos hc]
        refine ih (acc ++ [x]) c hmem hi ?_ hndt
        intro d hd
        rcases List.mem_append.mp hd with hda | hdx
        · exact hacc d hda
        · rw [List.mem_singleton.mp hdx]
          exact hxid
      · rw [if_neg hc]
        exact ih acc c hmem hi hacc hndt

/-- Counterexample to claim C5 as stated: a creator whose account id is
on both the include and the exclude list does NOT stay excluded — the
include pass re-adds it (the re-add loop checks only the include set,
`analytics.py` lines 545-551). -/
theorem C5_both_lists_counterexample :
    (⟨1, "a"⟩ : PoolCreator) ∈ filterCreators [⟨1, "a"⟩] ["a"] ["a"] ∧
    filterCreators [⟨1, "a"⟩] ["a"] ["a"] = [⟨1, "a"⟩] := by
  constructor
  · decide
  · decide

/-- Claim C5 as amended: over a fetched pool with distinct creator ids,
exclusion is applied first and inclusion second, and the final pool
contains exactly the fetched creators that are either not excluded or on
the include list — so inclusion overrides exclusion for a creator on
both lists, and (since both passes only walk the fetched pool) a creator
absent from the fetched pool can never be added. -/
theorem C5_include_exclude_amended (pool : List PoolCreator) (inc exc : List String)
    (hnd : (pool.map (fun c => c.creator_id)).Nodup) (c : PoolCreator) :
    c ∈ filterCreators pool inc exc ↔
      c ∈ pool ∧ (¬ (exc ≠ [] ∧ stripStr c.acct_id ∈ exc) ∨ stripStr c.acct_id ∈ inc) := by
  unfold filterCreators
  by_cases hinc : inc ≠ []
  · rw [if_pos hinc]
    constructor
    · intro h
      rcases addIncluded_sub inc pool _ c h with hf | ⟨hp, hi⟩
      · have hmf := List.mem_filter.mp hf
        have h2 : ¬ (exc ≠ [] ∧ stripStr c.acct_id ∈ exc) := by
          have h3 := hmf.2
          simp only [decide_eq_true_eq] at h3
          tauto
        exact ⟨hmf.1, Or.inl h2⟩
      · exact ⟨hp, Or.inr hi⟩
    · rintro ⟨hp, hcond⟩
      rcases hcond with hne | hi
      · refine addIncluded_mono inc pool _ c (List.mem_filter.mpr ⟨hp, ?_⟩)
        simp only [decide_eq_true_eq]
        tauto
      · by_cases hcf : c ∈ pool.filter (fun d => ¬ (exc ≠ [] ∧ stripStr d.acct_id ∈ exc))
        · exact addIncluded_mono inc pool _ c hcf
        · refine addIncluded_complete inc pool _ c hp hi ?_ hnd
          intro d hd hdc
          have hdp : d ∈ pool := (List.mem_filter.mp hd).1
          have hdceq : d = c := List.inj_on_of_nodup_map hnd hdp hp hdc
          rw [hdceq] at hd
          exact hcf hd
  · rw [if_neg hinc]
    have hinc0 : inc = [] := not_not.mp hinc
    constructor
    · intro h
      have hmf := List.mem_filter.mp h
      have h2 : ¬ (exc ≠ [] ∧ stripStr c.acct_id ∈ exc) := by
        have h3 := hmf.2
        simp only [decide_eq_true_eq] at h3
        tauto
      exact ⟨hmf.1, Or.inl h2⟩
    · rintro ⟨hp, hcond | hi⟩
      · refine List.mem_filter.mpr ⟨hp, ?_⟩
        simp only [decide_eq_true_eq]
        tauto
      · rw [hinc0] at hi
        exact absurd hi (List.not_mem_nil _)

/-- Witness for the amended C5 at a concrete pool: the creator on both
lists is in the final pool, an excluded-only creator is not, an
untouched creator is. -/
theorem C5_include_exclude_amended_witness :
    (⟨1, "a"⟩ : PoolCreator) ∈ filterCreators [⟨1, "a"⟩, ⟨2, "b"⟩, ⟨3, "d"⟩] ["a"] ["a", "b"] ∧
    ¬ ((⟨2, "b"⟩ : PoolCreator) ∈ filterCreators [⟨1, "a"⟩, ⟨2, "b"⟩, ⟨3, "d"⟩] ["a"] ["a", "b"]) ∧
    (⟨3, "d"⟩ : PoolCreator) ∈ filterCreators [⟨1, "a"⟩, ⟨2, "b"⟩, ⟨3, "d"⟩] ["a"] ["a", "b"] := by
  refine ⟨?_, ?_, ?_⟩
  · refine (C5_include_exclude_amended _ ["a"] ["a", "b"] (by decide) ⟨1, "a"⟩).mpr ?_
    refine ⟨by decide, Or.inr ?_⟩
    decide
  · intro h
    have hc := (C5_include_exclude_amended _ ["a"] ["a", "b"] (by decide) ⟨2, "b"⟩).mp h
    rcases hc.2 with hne | hi
    · exact hne (by decide)
    · exact absurd hi (by decide)
  · refine (C5_include_exclude_amended _ ["a"] ["a", "b"] (by decide) ⟨3, "d"⟩).mpr ?_
    refine ⟨by decide, Or.inl ?_⟩
    intro hx
    exact absurd hx.2 (by decide)

/-- A raw creator with zero clicks and no estimate. -/
def c10raw : RawCreator :=
  { creator_id := 7, total_clicks := 0, conservative_click_estimate := none
    total_conversions := 5, overall_clicks := 9, overall_conversions := 3
    historical_days := none }

/-- Witness for C10 at a concrete pool. -/
theorem C10_zero_click_exclusion_witness :
    (∀ s ∈ buildStats 1 (1/40) none 30 [c10raw], s.creator_id ≠ 7) ∧
    (∀ e ∈ (createPlanRun 100 1 (1/40) none 30 [c10raw]).picked, e.creator_id ≠ 7) := by
  refine C10_zero_click_exclusion 100 1 (1/40) none 30 [c10raw] 7 ?_
  intro r hr _
  rcases List.mem_singleton.mp hr with rfl
  exact ⟨rfl, Or.inl rfl⟩

/-- Five Phase-1 candidates for `create_smart_plan`: CPAs 1..5 (all
under the target CPA 100), 10 expected clicks and 1 expected conversion
each, no embeddings. -/
def c2ms : List MatchedCreator :=
  [{ creator_id := 1, batch_cvr := none, perf_expected_cpa := some 1, perf_expected_cvr := 1/10
     perf_expected_clicks := 10, perf_expected_conversions := 1, combined_score := 1/2 },
   { creator_id := 2, batch_cvr := none, perf_expected_cpa := some 2, perf_expected_cvr := 1/10
     perf_expected_clicks := 10, perf_expected_conversions := 1, combined_score := 1/2 },
   { creator_id := 3, batch_cvr := none, perf_expected_cpa := some 3, perf_expected_cvr := 1/10
     perf_expected_clicks := 10, perf_expected_conversions := 1, combined_score := 1/2 },
   { creator_id := 4, batch_cvr := none, perf_expected_cpa := some 4, perf_expected_cvr := 1/10
     perf_expected_clicks := 10, perf_expected_conversions := 1, combined_score := 1/2 },
   { creator_id := 5, batch_cvr := none, perf_expected_cpa := some 5, perf_expected_cvr := 1/10
     perf_expected_clicks := 10, perf_expected_conversions := 1, combined_score := 1/2 }]

set_option maxHeartbeats 1600000 in
/-- Claim C2 (code bug): in `create_smart_plan`, with budget 1000,
cpc 1, target CPA 100 and the five Phase-1 candidates above, Phase 1
allocates one placement to each; the Phase-3 loop then runs once per
Phase-1 element with its placement-cap check stranded in dead code
(`analytics.py` lines 1100-1111), repeatedly adding placements to the
creator left in the leaked `creator_id` variable — the fifth creator
ends the plan with SIX placements, violating the cap of 3 the claim
(and the comment at line 1095, "up to 3 total per creator") requires. -/
theorem C2_placement_cap_violation :
    ((smartPlanRun 1000 1 (some 100) c2ms false []).picked.map
        (fun e => (e.creator_id, e.recommended_placements)) =
      [(1, 1), (2, 1), (3, 1), (4, 1), (5, 6)]) ∧
    (∃ e ∈ (smartPlanRun 1000 1 (some 100) c2ms false []).picked,
      3 < e.recommended_placements) := by
  have hp : (smartPlanRun 1000 1 (some 100) c2ms false []).picked =
      [{ creator_id := 1, expected_clicks := 10, expected_spend := 10
         expected_conversions := 1, value_ratio := 1/2, recommended_placements := 1 },
       { creator_id := 2, expected_clicks := 10, expected_spend := 10
         expected_conversions := 1, value_ratio := 1/2, recommended_placements := 1 },
       { creator_id := 3, expected_clicks := 10, expected_spend := 10
         expected_conversions := 1, value_ratio := 1/2, recommended_placements := 1 },
       { creator_id := 4, expected_clicks := 10, expected_spend := 10
         expected_conversions := 1, value_ratio := 1/2, recommended_placements := 1 },
       { creator_id := 5, expected_clicks := 60, expected_spend := 60
         expected_conversions := 6, value_ratio := 1/2, recommended_placements := 6 }] := by
    norm_num [smartPlanRun, smartAlloc, phase1Alloc, phase1Select, sortPhase1, smartCpaOf,
      leCpaKey, failScan, phase3Loop, findEntry, setEntry, getCount, setCount, c2ms,
      List.insertionSort, List.orderedInsert, List.filter, vectorSims, phase4Alloc, phase5Loop]
    rw [if_neg (List.cons_ne_nil _ _)]
  constructor
  · rw [hp]
    rfl
  · rw [hp]
    refine ⟨{ creator_id := 5, expected_clicks := 60, expected_spend := 60
              expected_conversions := 6, value_ratio := 1/2, recommended_placements := 6 },
      ?_, by norm_num⟩
    simp

/-- Total expected spend of a picked-creator list (the recalculated
`final_total_spend` of `analytics.py` line 1335). -/
def sumSpend (l : List SmartEntry) : Rat :=
  (l.map (fun e => e.expected_spend)).sum

/-- Budget accounting of the smart-plan allocation: spend-so-far (as the
final recalculation will see it) plus remaining budget equals the
budget, the remaining budget and every entry's spend are non-negative,
and the leaked `expected_clicks` register is non-negative. -/
def SmartInv (b : Rat) (st : SmartState) : Prop :=
  sumSpend st.picked + st.remaining = b ∧ 0 ≤ st.remaining ∧
  (∀ e ∈ st.picked, 0 ≤ e.expected_spend) ∧ 0 ≤ st.reg_expected_clicks

/-- Any entry carrying the leaked `creator_id` has spend equal to its
per-placement spend (`cpc` times the leaked `expected_clicks`) times its
placement count; this is what keeps the Phase-3 overwrite consistent. -/
def RegTie (cpc : Rat) (st : SmartState) : Prop :=
  ∀ e ∈ st.picked, e.creator_id = st.reg_creator_id →
    e.expected_spend = cpc * st.reg_expected_clicks * e.recommended_placements

/-- Any entry sharing an id with a vector-fallback candidate has spend
equal to that candidate's per-placement spend times its placement count. -/
def VecTie (cpc : Rat) (vsims : List VecCand) (picked : List SmartEntry) : Prop :=
  ∀ e ∈ picked, ∀ v ∈ vsims, e.creator_id = v.creator_id →
    e.expected_spend = cpc * resolvedClicks v * e.recommended_placements

/-- The picked list never repeats a creator id. -/
def IdsNodup (picked : List SmartEntry) : Prop :=
  (picked.map (fun e => e.creator_id)).Nodup

/-- A found entry is a member with the looked-up id. -/
theorem findEntry_mem (picked : List SmartEntry) (cid : Nat) (e : SmartEntry)
    (h : findEntry picked cid = some e) : e ∈ picked ∧ e.creator_id = cid := by
  refine ⟨List.mem_of_find?_eq_some h, ?_⟩
  have := List.find?_some h
  simpa using this

/-- Replacing the first entry with a given id changes `sumSpend` by the
difference between the new and the old spend of that entry. -/
theorem sumSpend_setEntry (cid : Nat) (f : SmartEntry → SmartEntry) :
    ∀ (picked : List SmartEntry) (e : SmartEntry), findEntry picked cid = some e →
    sumSpend (setEntry picked cid f) =
      sumSpend picked - e.expected_spend + (f e).expected_spend := by
  intro picked
  induction picked with
  | nil => intro e h; exact absurd h (by simp [findEntry])
  | cons x t ih =>
    intro e h
    by_cases hx : (x.creator_id == cid) = true
    · have hex : e = x := by
        unfold findEntry at h
        rw [@List.find?_cons_of_pos _ (fun e => e.creator_id == cid) x t hx] at h
        exact (Option.some.injEq _ _ ▸ h.symm)
      subst hex
      unfold setEntry
      rw [if_pos hx]
      simp only [sumSpend, List.map_cons, List.sum_cons]
      ring
    · have ht : findEntry t cid = some e := by
        unfold findEntry at h ⊢
        rwa [@List.find?_cons_of_neg _ (fun e => e.creator_id == cid) x t (by simpa using hx)] at h
      unfold setEntry
      rw [if_neg hx]
      simp only [sumSpend, List.map_cons, List.sum_cons]
      have := ih e ht
      simp only [sumSpend] at this
      rw [this]
      ring

/-- Members of `setEntry picked cid f` are old members or the image of
the first entry carrying `cid`. -/
theorem mem_setEntry (cid : Nat) (f : SmartEntry → SmartEntry) :
    ∀ (picked : List SmartEntry) (x : SmartEntry), x ∈ setEntry picked cid f →
    x ∈ picked ∨ ∃ e, findEntry picked cid = some e ∧ x = f e := by
  intro picked
  induction picked with
  | nil => intro x h; exact Or.inl (by simpa [setEntry] using h)
  | cons y t ih =>
    intro x h
    by_cases hy : (y.creator_id == cid) = true
    · unfold setEntry at h
      rw [if_pos hy] at h
      rcases List.mem_cons.mp h with hx | hx
      · refine Or.inr ⟨y, ?_, hx⟩
        unfold findEntry
        rw [@List.find?_cons_of_pos _ (fun e => e.creator_id == cid) y t hy]
      · exact Or.inl (List.mem_cons_of_mem y hx)
    · unfold setEntry at h
      rw [if_neg hy] at h
      rcases List.mem_cons.mp h with hx | hx
      · exact Or.inl (by rw [hx]; exact List.mem_cons_self y t)
      · rcases ih x hx with hm | ⟨e, he, hxe⟩
        · exact Or.inl (List.mem_cons_of_mem y hm)
        · refine Or.inr ⟨e, ?_, hxe⟩
          unfold findEntry at he ⊢
          rw [@List.find?_cons_of_neg _ (fun e => e.creator_id == cid) y t (by simpa using hy)]
          exact he

/-- `setEntry` keeps the id sequence when the update keeps the id. -/
theorem setEntry_map_id (cid : Nat) (f : SmartEntry → SmartEntry)
    (hf : ∀ e, (f e).creator_id = e.creator_id) :
    ∀ picked : List SmartEntry,
    (setEntry picked cid f).map (fun e => e.creator_id) =
      picked.map (fun e => e.creator_id) := by
  intro picked
  induction picked with
  | nil => rfl
  | cons y t ih =>
    unfold setEntry
    by_cases hy : (y.creator_id == cid) = true
    · rw [if_pos hy]
      simp [hf y]
    · rw [if_neg hy]
      simp [ih]

/-- A list of non-negative spends has non-negative total. -/
theorem sumSpend_nonneg (l : List SmartEntry) (h : ∀ e ∈ l, 0 ≤ e.expected_spend) :
    0 ≤ sumSpend l := by
  refine List.sum_nonneg ?_
  intro x hx
  obtain ⟨e, he, rfl⟩ := List.mem_map.mp hx
  exact h e he

/-- `sumSpend` over an appended singleton. -/
theorem sumSpend_append_single (l : List SmartEntry) (e : SmartEntry) :
    sumSpend (l ++ [e]) = sumSpend l + e.expected_spend := by
  simp [sumSpend]

/-- Appending an entry with a fresh id keeps ids distinct. -/
theorem idsNodup_append (picked : List SmartEntry) (x : SmartEntry)
    (h1 : IdsNodup picked) (h2 : ∀ e ∈ picked, e.creator_id ≠ x.creator_id) :
    IdsNodup (picked ++ [x]) := by
  unfold IdsNodup
  rw [List.map_append]
  refine List.Nodup.append h1 (List.nodup_singleton _) ?_
  intro a ha hb
  obtain ⟨e, he, heq⟩ := List.mem_map.mp ha
  have hax : a = x.creator_id := List.mem_singleton.mp hb
  exact h2 e he (by rw [heq, hax])

/-- Unfolding of one Phase-1 step, with the `let`-bound intermediate
states written out. -/
theorem phase1Alloc_cons (cpc : Rat) (m : MatchedCreator) (rest : List MatchedCreator)
    (st : SmartState) :
    phase1Alloc cpc (m :: rest) st =
      if st.remaining ≤ 0 then st
      else if 3 ≤ getCount st.counts m.creator_id then
        phase1Alloc cpc rest { st with reg_creator_id := m.creator_id }
      else if cpc * m.perf_expected_clicks ≤ st.remaining then
        phase1Alloc cpc rest
          { st with
            reg_creator_id := m.creator_id
            reg_expected_clicks := m.perf_expected_clicks
            picked := st.picked ++
              [{ creator_id := m.creator_id
                 expected_clicks := m.perf_expected_clicks
                 expected_spend := cpc * m.perf_expected_clicks
                 expected_conversions := m.perf_expected_conversions
                 value_ratio := m.combined_score
                 recommended_placements := 1 }]
            total_spend := st.total_spend + cpc * m.perf_expected_clicks
            total_conversions := st.total_conversions + m.perf_expected_conversions
            remaining := st.remaining - cpc * m.perf_expected_clicks
            counts := setCount st.counts m.creator_id 1 }
      else
        phase1Alloc cpc rest
          { st with
            reg_creator_id := m.creator_id
            reg_expected_clicks := m.perf_expected_clicks } := rfl

/-- The Phase-1 allocation loop preserves the budget accounting, the
register tie and id distinctness, provided the incoming creator list has
distinct ids none of which is already picked. -/
theorem phase1Alloc_inv (b cpc : Rat) (hc : 0 ≤ cpc) :
    ∀ (ms : List MatchedCreator) (st : SmartState),
    (∀ m ∈ ms, 0 ≤ m.perf_expected_clicks) →
    ((ms.map (fun m => m.creator_id)).Nodup) →
    (∀ m ∈ ms, ∀ e ∈ st.picked, e.creator_id ≠ m.creator_id) →
    SmartInv b st → RegTie cpc st → IdsNodup st.picked →
    SmartInv b (phase1Alloc cpc ms st) ∧ RegTie cpc (phase1Alloc cpc ms st) ∧
      IdsNodup (phase1Alloc cpc ms st).picked := by
  intro ms
  induction ms with
  | nil => intro st _ _ _ hi ht hn; exact ⟨hi, ht, hn⟩
  | cons m rest ih =>
    intro st hm hnd hfresh hi ht hn
    rw [phase1Alloc_cons]
    by_cases hrem : st.remaining ≤ 0
    · rw [if_pos hrem]; exact ⟨hi, ht, hn⟩
    · rw [if_neg hrem]
      have hmt : ∀ m' ∈ rest, 0 ≤ m'.perf_expected_clicks :=
        fun m' hm' => hm m' (List.mem_cons_of_mem m hm')
      have hndt : (rest.map (fun m' => m'.creator_id)).Nodup :=
        (List.nodup_cons.mp (by simpa using hnd)).2
      have hmhead : m.creator_id ∉ rest.map (fun m' => m'.creator_id) :=
        (List.nodup_cons.mp (by simpa using hnd)).1
      by_cases hcap : 3 ≤ getCount st.counts m.creator_id
      · rw [if_pos hcap]
        refine ih _ hmt hndt ?_ ⟨hi.1, hi.2.1, hi.2.2.1, hi.2.2.2⟩ ?_ hn
        · exact fun m' hm' e he => hfresh m' (List.mem_cons_of_mem m hm') e he
        · intro e he heq
          exact absurd heq (hfresh m (List.mem_cons_self m rest) e he)
      · rw [if_neg hcap]
        by_cases hfit : cpc * m.perf_expected_clicks ≤ st.remaining
        · rw [if_pos hfit]
          have hsp : 0 ≤ cpc * m.perf_expected_clicks :=
            mul_nonneg hc (hm m (List.mem_cons_self m rest))
          refine ih _ hmt hndt ?_ ?_ ?_ ?_
          · intro m' hm' e he
            rcases List.mem_append.mp he with hmem | hmem
            · exact hfresh m' (List.mem_cons_of_mem m hm') e hmem
            · have hex := List.mem_singleton.mp hmem
              rw [hex]
              show m.creator_id ≠ m'.creator_id
              intro hid
              exact hmhead (by rw [hid]; exact List.mem_map_of_mem _ hm')
          · obtain ⟨h1, h2, h3, _⟩ := hi
            refine ⟨?_, ?_, ?_, hm m (List.mem_cons_self m rest)⟩
            · rw [sumSpend_append_single]
              dsimp only
              linarith
            · dsimp only
              linarith
            · intro e he
              rcases List.mem_append.mp he with hmem | hmem
              · exact h3 e hmem
              · rw [List.mem_singleton.mp hmem]
                exact hsp
          · intro e he heq
            rcases List.mem_append.mp he with hmem | hmem
            · exact absurd heq (hfresh m (List.mem_cons_self m rest) e hmem)
            · rw [List.mem_singleton.mp hmem]
              push_cast
              ring
          · refine idsNodup_append st.picked _ hn ?_
            intro e he
            exact hfresh m (List.mem_cons_self m rest) e he
        · rw [if_neg hfit]
          refine ih _ hmt hndt ?_ ⟨hi.1, hi.2.1, hi.2.2.1,
            hm m (List.mem_cons_self m rest)⟩ ?_ hn
          · exact fun m' hm' e he => hfresh m' (List.mem_cons_of_mem m hm') e he
          · intro e he heq
            exact absurd heq (hfresh m (List.mem_cons_self m rest) e he)

/-- The failure scan only rewrites the leaked `performance_data`
register, so it preserves all allocation invariants. -/
theorem failScan_inv (b cpc : Rat) (ms : List MatchedCreator) (st : SmartState)
    (hi : SmartInv b st) (ht : RegTie cpc st) (hn : IdsNodup st.picked) :
    SmartInv b (failScan ms st) ∧ RegTie cpc (failScan ms st) ∧
      IdsNodup (failScan ms st).picked := by
  unfold failScan
  cases ms.getLast? with
  | none => exact ⟨hi, ht, hn⟩
  | some m => exact ⟨⟨hi.1, hi.2.1, hi.2.2.1, hi.2.2.2⟩, fun e he heq => ht e he heq, hn⟩

/-- An id-preserving `setEntry` keeps ids distinct. -/
theorem idsNodup_setEntry (cid : Nat) (f : SmartEntry → SmartEntry)
    (hf : ∀ e, (f e).creator_id = e.creator_id) (picked : List SmartEntry)
    (h : IdsNodup picked) : IdsNodup (setEntry picked cid f) := by
  unfold IdsNodup
  rw [setEntry_map_id cid f hf]
  exact h

/-- The Phase-3 loop preserves the budget accounting, the register tie
and id distinctness.  The key step: when the leaked `creator_id` has an
entry, that entry's spend is its per-placement spend times its placement
count (the register tie), so overwriting it with `spend * (n+1)` while
deducting one `spend` from the remaining budget keeps
`sumSpend + remaining` constant. -/
theorem phase3Loop_inv (b cpc : Rat) (hc : 0 ≤ cpc) :
    ∀ (k : Nat) (st : SmartState),
    SmartInv b st → RegTie cpc st → IdsNodup st.picked →
    SmartInv b (phase3Loop cpc k st) ∧ RegTie cpc (phase3Loop cpc k st) ∧
      IdsNodup (phase3Loop cpc k st).picked := by
  intro k
  induction k with
  | zero => intro st hi ht hn; exact ⟨hi, ht, hn⟩
  | succ n ih =>
    intro st hi ht hn
    unfold phase3Loop
    by_cases hrem : st.remaining ≤ 0
    · rw [if_pos hrem]; exact ⟨hi, ht, hn⟩
    · rw [if_neg hrem]
      dsimp only
      by_cases hfit : cpc * st.reg_expected_clicks ≤ st.remaining
      · rw [if_pos hfit]
        cases hfe : findEntry st.picked st.reg_creator_id with
        | none => exact ih st hi ht hn
        | some pc =>
          dsimp only
          obtain ⟨hpcm, hpcid⟩ := findEntry_mem st.picked st.reg_creator_id pc hfe
          have htie := ht pc hpcm hpcid
          have hspnn : 0 ≤ cpc * st.reg_expected_clicks := mul_nonneg hc hi.2.2.2
          refine ih _ ?_ ?_ ?_
          · obtain ⟨h1, h2, h3, h4⟩ := hi
            refine ⟨?_, ?_, ?_, h4⟩
            · dsimp only
              rw [sumSpend_setEntry st.reg_creator_id _ st.picked pc hfe]
              dsimp only
              rw [htie]
              push_cast
              linear_combination h1
            · dsimp only
              linarith
            · intro e he
              dsimp only at he
              rcases mem_setEntry st.reg_creator_id _ st.picked e he with hm | ⟨e0, he0, hee⟩
              · exact h3 e hm
              · rw [hee]
                dsimp only
                positivity
          · intro e he heq
            dsimp only at he heq ⊢
            rcases mem_setEntry st.reg_creator_id _ st.picked e he with hm | ⟨e0, he0, hee⟩
            · exact ht e hm heq
            · rw [hee]
          · dsimp only
            refine idsNodup_setEntry _ _ ?_ st.picked hn
            intro e0
            rfl
      · rw [if_neg hfit]
        exact ih st hi ht hn

/-- The resolved click estimate is non-negative whenever the stored
estimate is. -/
theorem resolvedClicks_nonneg (v : VecCand)
    (h : ∀ q, v.conservative_click_estimate = some q → 0 ≤ q) : 0 ≤ resolvedClicks v := by
  unfold resolvedClicks
  cases hq : v.conservative_click_estimate with
  | none => norm_num
  | some q =>
    dsimp only
    by_cases hq0 : q = 0
    · rw [if_pos hq0]
      norm_num
    · rw [if_neg hq0]
      exact h q hq

/-- Unfolding of one Phase-4 step. -/
theorem phase4Alloc_cons (cpc : Rat) (v : VecCand) (rest : List VecCand) (st : SmartState) :
    phase4Alloc cpc (v :: rest) st =
      if st.remaining ≤ 0 then st
      else if cpc * resolvedClicks v ≤ st.remaining then
        phase4Alloc cpc rest
          { st with
            picked := st.picked ++
              [{ creator_id := v.creator_id
                 expected_clicks := resolvedClicks v
                 expected_spend := cpc * resolvedClicks v
                 expected_conversions := 0
                 value_ratio := v.similarity
                 recommended_placements := 1 }]
            total_spend := st.total_spend + cpc * resolvedClicks v
            total_conversions := st.total_conversions + 0
            remaining := st.remaining - cpc * resolvedClicks v
            counts := setCount st.counts v.creator_id 1 }
      else phase4Alloc cpc rest st := rfl

/-- The Phase-4 vector-fallback pass preserves the budget accounting,
the vector tie and id distinctness, for a candidate suffix drawn from
the ranked fallback list whose ids are fresh and distinct. -/
theorem phase4Alloc_inv (b cpc : Rat) (hc : 0 ≤ cpc) (VS : List VecCand)
    (hndVS : (VS.map (fun v => v.creator_id)).Nodup)
    (hvVS : ∀ v ∈ VS, 0 ≤ resolvedClicks v) :
    ∀ (vl : List VecCand) (st : SmartState),
    (∀ v ∈ vl, v ∈ VS) →
    ((vl.map (fun v => v.creator_id)).Nodup) →
    (∀ v ∈ vl, ∀ e ∈ st.picked, e.creator_id ≠ v.creator_id) →
    SmartInv b st → VecTie cpc VS st.picked → IdsNodup st.picked →
    SmartInv b (phase4Alloc cpc vl st) ∧ VecTie cpc VS (phase4Alloc cpc vl st).picked ∧
      IdsNodup (phase4Alloc cpc vl st).picked := by
  intro vl
  induction vl with
  | nil => intro st _ _ _ hi ht hn; exact ⟨hi, ht, hn⟩
  | cons v rest ih =>
    intro st hsub hnd hfresh hi ht hn
    rw [phase4Alloc_cons]
    by_cases hrem : st.remaining ≤ 0
    · rw [if_pos hrem]; exact ⟨hi, ht, hn⟩
    · rw [if_neg hrem]
      have hsubt : ∀ v' ∈ rest, v' ∈ VS := fun v' hv' => hsub v' (List.mem_cons_of_mem v hv')
      have hndt : (rest.map (fun v' => v'.creator_id)).Nodup :=
        (List.nodup_cons.mp (by simpa using hnd)).2
      have hvhead : v.creator_id ∉ rest.map (fun v' => v'.creator_id) :=
        (List.nodup_cons.mp (by simpa using hnd)).1
      by_cases hfit : cpc * resolvedClicks v ≤ st.remaining
      · rw [if_pos hfit]
        have hsp : 0 ≤ cpc * resolvedClicks v :=
          mul_nonneg hc (hvVS v (hsub v (List.mem_cons_self v rest)))
        refine ih _ hsubt hndt ?_ ?_ ?_ ?_
        · intro v' hv' e he
          rcases List.mem_append.mp he with hmem | hmem
          · exact hfresh v' (List.mem_cons_of_mem v hv') e hmem
          · rw [List.mem_singleton.mp hmem]
            show v.creator_id ≠ v'.creator_id
            intro hid
            exact hvhead (by rw [hid]; exact List.mem_map_of_mem _ hv')
        · obtain ⟨h1, h2, h3, h4⟩ := hi
          refine ⟨?_, ?_, ?_, h4⟩
          · rw [sumSpend_append_single]
            dsimp only
            linarith
          · dsimp only
            linarith
          · intro e he
            rcases List.mem_append.mp he with hmem | hmem
            · exact h3 e hmem
            · rw [List.mem_singleton.mp hmem]
              exact hsp
        · intro e he v' hv' heq
          rcases List.mem_append.mp he with hmem | hmem
          · exact ht e hmem v' hv' heq
          · have hev : e = _ := List.mem_singleton.mp hmem
            rw [hev] at heq ⊢
            have hvv : v = v' := by
              refine List.inj_on_of_nodup_map hndVS (hsub v (List.mem_cons_self v rest)) hv' ?_
              simpa using heq
            rw [← hvv]
            push_cast
            ring
        · refine idsNodup_append st.picked _ hn ?_
          intro e he
          exact hfresh v (List.mem_cons_self v rest) e he
      · rw [if_neg hfit]
        exact ih st hsubt hndt
          (fun v' hv' e he => hfresh v' (List.mem_cons_of_mem v hv') e he) hi ht hn

/-- The Phase-5 loop preserves the budget accounting, the vector tie and
id distinctness: each update overwrites the unique entry of a fallback
creator with per-placement spend times the bumped placement count while
deducting one per-placement spend from the remaining budget. -/
theorem phase5Loop_inv (b cpc : Rat) (hc : 0 ≤ cpc) (vsims : List VecCand)
    (hndVS : (vsims.map (fun v => v.creator_id)).Nodup)
    (hv : ∀ v ∈ vsims, 0 ≤ resolvedClicks v) :
    ∀ (fuel : Nat) (st : SmartState),
    SmartInv b st → VecTie cpc vsims st.picked → IdsNodup st.picked →
    SmartInv b (phase5Loop cpc vsims fuel st) ∧
      VecTie cpc vsims (phase5Loop cpc vsims fuel st).picked ∧
      IdsNodup (phase5Loop cpc vsims fuel st).picked := by
  intro fuel
  induction fuel with
  | zero => intro st hi ht hn; exact ⟨hi, ht, hn⟩
  | succ n ih =>
    intro st hi ht hn
    unfold phase5Loop
    by_cases hrem : st.remaining ≤ 0
    · rw [if_pos hrem]; exact ⟨hi, ht, hn⟩
    · rw [if_neg hrem]
      cases hfind : phase5Find cpc vsims st with
      | none => exact ⟨hi, ht, hn⟩
      | some v =>
        dsimp only
        have hvm : v ∈ vsims := List.mem_of_find?_eq_some hfind
        have hpred := List.find?_some hfind
        simp only [Bool.and_eq_true, decide_eq_true_eq] at hpred
        cases hfe : findEntry st.picked v.creator_id with
        | none => exact ih st hi ht hn
        | some pc =>
          dsimp only
          obtain ⟨hpcm, hpcid⟩ := findEntry_mem st.picked v.creator_id pc hfe
          have htie := ht pc hpcm v hvm hpcid
          have hsp : 0 ≤ cpc * resolvedClicks v := mul_nonneg hc (hv v hvm)
          refine ih _ ?_ ?_ ?_
          · obtain ⟨h1, h2, h3, h4⟩ := hi
            refine ⟨?_, ?_, ?_, h4⟩
            · dsimp only
              rw [sumSpend_setEntry v.creator_id _ st.picked pc hfe]
              dsimp only
              rw [htie]
              push_cast
              linear_combination h1
            · dsimp only
              linarith [hpred.2]
            · intro e he
              dsimp only at he
              rcases mem_setEntry v.creator_id _ st.picked e he with hm | ⟨e0, he0, hee⟩
              · exact h3 e hm
              · rw [hee]
                dsimp only
                positivity
          · intro e he v' hv' heq
            dsimp only at he heq ⊢
            rcases mem_setEntry v.creator_id _ st.picked e he with hm | ⟨e0, he0, hee⟩
            · exact ht e hm v' hv' heq
            · rw [hee] at heq
              dsimp only at heq
              have he0id := (findEntry_mem st.picked v.creator_id e0 he0).2
              rw [he0id] at heq
              have hvv : v = v' := List.inj_on_of_nodup_map hndVS hvm hv' heq
              rw [hee, ← hvv]
          · dsimp only
            refine idsNodup_setEntry _ _ ?_ st.picked hn
            intro e0
            rfl

/-- The guarded Phase-3 stage preserves the budget accounting and id
distinctness. -/
theorem p3Stage_inv (b cpc : Rat) (hc : 0 ≤ cpc) (k : Nat) (st2 : SmartState)
    (hi : SmartInv b st2) (ht : RegTie cpc st2) (hn : IdsNodup st2.picked) :
    SmartInv b (if 0 < st2.remaining then phase3Loop cpc k st2 else st2) ∧
    IdsNodup (if 0 < st2.remaining then phase3Loop cpc k st2 else st2).picked := by
  by_cases hcond : 0 < st2.remaining
  · rw [if_pos hcond]
    have hz := phase3Loop_inv b cpc hc k st2 hi ht hn
    exact ⟨hz.1, hz.2.2⟩
  · rw [if_neg hcond]
    exact ⟨hi, hn⟩

/-- The vector-fallback stage (Phases 4 and 5, guarded by remaining
budget and available anchors) preserves the budget accounting. -/
theorem vecStage_inv (b cpc : Rat) (hc : 0 ≤ cpc) (vcs : List VecCand)
    (hvc : ∀ v ∈ vcs, ∀ q, v.conservative_click_estimate = some q → 0 ≤ q)
    (hndv : (vcs.map (fun v => v.creator_id)).Nodup)
    (anchors : Bool) (st3 : SmartState) (hi : SmartInv b st3) (hn : IdsNodup st3.picked) :
    SmartInv b (if 0 < st3.remaining ∧ anchors = true then
        phase5Loop cpc (vectorSims st3.picked vcs)
          ((vectorSims st3.picked vcs).length * 3)
          (phase4Alloc cpc (vectorSims st3.picked vcs) st3)
      else st3) := by
  by_cases hcond : 0 < st3.remaining ∧ anchors = true
  · rw [if_pos hcond]
    have hperm : List.Perm (vectorSims st3.picked vcs)
        (vcs.filter (fun v => decide ((7 : Rat) / 10 ≤ v.similarity) &&
          st3.picked.all (fun e => e.creator_id != v.creator_id))) :=
      List.perm_insertionSort _ _
    have hsubf : ∀ v ∈ vectorSims st3.picked vcs,
        v ∈ vcs.filter (fun v => decide ((7 : Rat) / 10 ≤ v.similarity) &&
          st3.picked.all (fun e => e.creator_id != v.creator_id)) :=
      fun v hv => hperm.mem_iff.mp hv
    have hsub : ∀ v ∈ vectorSims st3.picked vcs, v ∈ vcs :=
      fun v hv => List.mem_of_mem_filter (hsubf v hv)
    have hfresh : ∀ v ∈ vectorSims st3.picked vcs, ∀ e ∈ st3.picked,
        e.creator_id ≠ v.creator_id := by
      intro v hv e he
      have hpred := (List.mem_filter.mp (hsubf v hv)).2
      simp only [Bool.and_eq_true, List.all_eq_true, bne_iff_ne] at hpred
      exact hpred.2 e he
    have hndVS : ((vectorSims st3.picked vcs).map (fun v => v.creator_id)).Nodup := by
      refine (List.Perm.nodup_iff (hperm.map (fun v => v.creator_id))).mpr ?_
      exact List.Nodup.sublist ((List.filter_sublist vcs).map (fun v => v.creator_id)) hndv
    have hres : ∀ v ∈ vectorSims st3.picked vcs, 0 ≤ resolvedClicks v :=
      fun v hv => resolvedClicks_nonneg v (hvc v (hsub v hv))
    have htie0 : VecTie cpc (vectorSims st3.picked vcs) st3.picked := by
      intro e he v hv heq
      exact absurd heq (hfresh v hv e he)
    have h4 := phase4Alloc_inv b cpc hc (vectorSims st3.picked vcs) hndVS hres
      (vectorSims st3.picked vcs) st3 (fun v hv => hv) hndVS hfresh hi htie0 hn
    have h5 := phase5Loop_inv b cpc hc (vectorSims st3.picked vcs) hndVS hres
      ((vectorSims st3.picked vcs).length * 3) _ h4.1 h4.2.1 h4.2.2
    exact h5.1
  · rw [if_neg hcond]
    exact hi

/-- Budget accounting for the whole smart-plan allocation: the spends of
the final picked list plus the remaining budget equal the budget, the
remaining budget is non-negative, and so is the total spend. -/
theorem smartAlloc_bounds (budget cpc : Rat) (target : Option Rat)
    (ms : List MatchedCreator) (anchors : Bool) (vcs : List VecCand)
    (hb : 0 ≤ budget) (hc : 0 ≤ cpc)
    (hm : ∀ m ∈ ms, 0 ≤ m.perf_expected_clicks)
    (hnd : (ms.map (fun m => m.creator_id)).Nodup)
    (hvc : ∀ v ∈ vcs, ∀ q, v.conservative_click_estimate = some q → 0 ≤ q)
    (hndv : (vcs.map (fun v => v.creator_id)).Nodup) :
    sumSpend (smartAlloc budget cpc target ms anchors vcs).picked +
      (smartAlloc budget cpc target ms anchors vcs).remaining = budget ∧
    0 ≤ (smartAlloc budget cpc target ms anchors vcs).remaining ∧
    0 ≤ sumSpend (smartAlloc budget cpc target ms anchors vcs).picked := by
  have hp1perm : List.Perm (sortPhase1 (phase1Select cpc target ms))
      (phase1Select cpc target ms) :=
    List.perm_insertionSort _ _
  have hp1mem : ∀ m ∈ sortPhase1 (phase1Select cpc target ms), m ∈ ms := by
    intro m hmm
    exact List.mem_of_mem_filter (hp1perm.mem_iff.mp hmm)
  have hp1clicks : ∀ m ∈ sortPhase1 (phase1Select cpc target ms),
      0 ≤ m.perf_expected_clicks := fun m hmm => hm m (hp1mem m hmm)
  have hp1nd : ((sortPhase1 (phase1Select cpc target ms)).map
      (fun m => m.creator_id)).Nodup := by
    refine (List.Perm.nodup_iff (hp1perm.map (fun m => m.creator_id))).mpr ?_
    exact List.Nodup.sublist
      ((List.filter_sublist ms).map (fun m => m.creator_id)) hnd
  have hinit : SmartInv budget
      { picked := [], total_spend := 0, total_conversions := 0, remaining := budget
        counts := [], reg_creator_id := 0, reg_expected_clicks := 0
        reg_perf_conversions := 0 } := by
    refine ⟨?_, hb, ?_, le_refl 0⟩
    · simp [sumSpend]
    · intro e he
      exact absurd he (List.not_mem_nil e)
  have h1 := phase1Alloc_inv budget cpc hc (sortPhase1 (phase1Select cpc target ms))
    { picked := [], total_spend := 0, total_conversions := 0, remaining := budget
      counts := [], reg_creator_id := 0, reg_expected_clicks := 0
      reg_perf_conversions := 0 }
    hp1clicks hp1nd (fun m _ e he => absurd he (List.not_mem_nil e)) hinit
    (fun e he => absurd he (List.not_mem_nil e)) (by simp [IdsNodup])
  have h2 := failScan_inv budget cpc ms _ h1.1 h1.2.1 h1.2.2
  have h3 := p3Stage_inv budget cpc hc
    (sortPhase1 (phase1Select cpc target ms)).length _ h2.1 h2.2.1 h2.2.2
  have hfin := vecStage_inv budget cpc hc vcs hvc hndv anchors _ h3.1 h3.2
  refine ⟨?_, ?_, ?_⟩
  · exact hfin.1
  · exact hfin.2.1
  · exact sumSpend_nonneg _ hfin.2.2.1

/-- Claim C1: for every valid planning request (budget > 0, with the
request's non-negative CPC and horizon), both allocators produce plans
whose total expected spend is at most the budget and whose
`budget_utilization = total_spend / budget` lies in `[0, 1]`.  For
`create_smart_plan` the candidate rows carry non-negative click
estimates and the database-distinct creator ids the source queries
guarantee. -/
theorem C1_budget_utilization :
    (∀ (budget cpc acvr : Rat) (target : Option Rat) (horizon : Rat) (rs : List RawCreator),
      0 < budget → 0 ≤ cpc → 0 ≤ horizon →
      (createPlanRun budget cpc acvr target horizon rs).total_spend ≤ budget ∧
      0 ≤ (createPlanRun budget cpc acvr target horizon rs).budget_utilization ∧
      (createPlanRun budget cpc acvr target horizon rs).budget_utilization ≤ 1) ∧
    (∀ (budget cpc : Rat) (target : Option Rat) (ms : List MatchedCreator)
        (anchors : Bool) (vcs : List VecCand),
      0 < budget → 0 ≤ cpc →
      (∀ m ∈ ms, 0 ≤ m.perf_expected_clicks) →
      ((ms.map (fun m => m.creator_id)).Nodup) →
      (∀ v ∈ vcs, ∀ q, v.conservative_click_estimate = some q → 0 ≤ q) →
      ((vcs.map (fun v => v.creator_id)).Nodup) →
      (smartPlanRun budget cpc target ms anchors vcs).total_spend ≤ budget ∧
      0 ≤ (smartPlanRun budget cpc target ms anchors vcs).budget_utilization ∧
      (smartPlanRun budget cpc target ms anchors vcs).budget_utilization ≤ 1) := by
  constructor
  · intro budget cpc acvr target horizon rs hb hcpc hhor
    exact createPlanAlloc_bounds budget _ hb
      (sortedStats_spend_nonneg cpc acvr target horizon rs hcpc hhor)
  · intro budget cpc target ms anchors vcs hb hcpc hm hnd hvc hndv
    by_cases hms : ms = []
    · unfold smartPlanRun
      rw [if_pos hms]
      exact ⟨le_of_lt hb, le_refl 0, by norm_num⟩
    · unfold smartPlanRun
      rw [if_neg hms]
      dsimp only
      obtain ⟨h1, h2, h3⟩ := smartAlloc_bounds budget cpc target ms anchors vcs
        (le_of_lt hb) hcpc hm hnd hvc hndv
      have hle : sumSpend (smartAlloc budget cpc target ms anchors vcs).picked ≤ budget := by
        linarith
      refine ⟨hle, ?_, ?_⟩
      · show 0 ≤ if 0 < budget then
          sumSpend (smartAlloc budget cpc target ms anchors vcs).picked / budget else 0
        rw [if_pos hb]
        exact div_nonneg h3 (le_of_lt hb)
      · show (if 0 < budget then
          sumSpend (smartAlloc budget cpc target ms anchors vcs).picked / budget else 0) ≤ 1
        rw [if_pos hb]
        exact (div_le_one hb).mpr hle

/-- Witness for C1 at concrete inputs for both allocators. -/
theorem C1_budget_utilization_witness :
    ((createPlanRun 1000 1 (1/40) none 30 [c4rawA, c4rawB]).total_spend ≤ 1000 ∧
     0 ≤ (createPlanRun 1000 1 (1/40) none 30 [c4rawA, c4rawB]).budget_utilization ∧
     (createPlanRun 1000 1 (1/40) none 30 [c4rawA, c4rawB]).budget_utilization ≤ 1) ∧
    ((smartPlanRun 1000 1 (some 100) c2ms false []).total_spend ≤ 1000 ∧
     0 ≤ (smartPlanRun 1000 1 (some 100) c2ms false []).budget_utilization ∧
     (smartPlanRun 1000 1 (some 100) c2ms false []).budget_utilization ≤ 1) := by
  constructor
  · exact C1_budget_utilization.1 1000 1 (1/40) none 30 [c4rawA, c4rawB]
      (by norm_num) (by norm_num) (by norm_num)
  · refine C1_budget_utilization.2 1000 1 (some 100) c2ms false []
      (by norm_num) (by norm_num) ?_ ?_ ?_ ?_
    · intro m hm
      unfold c2ms at hm
      simp only [List.mem_cons, List.not_mem_nil, or_false] at hm
      rcases hm with h|h|h|h|h <;> rw [h] <;> norm_num
    · decide
    · intro v hv
      exact absurd hv (List.not_mem_nil v)
    · simp

end KitPlanner
